import Mathlib

/-!
Verification of the interaction engine of the `timeline-calendar` component
(`src/calendar/calendar.component.ts`).

The component is embedded shallowly:
* JavaScript numbers are modelled by `ℚ`, except at the two places where the
  engine divides by a possibly-zero track width; there the result is a `JNum`,
  a rational extended with `NaN` and the two infinities, with the JavaScript
  comparison / `Math.min` / `Math.max` / `Math.round` semantics.
* JavaScript strings are Lean `String`s; `split` with a one-character
  separator is `splitChar`, and `Number(...)` conversion is `jsNumber`
  (restricted to optional-sign decimal forms: exponents, hex, `Infinity` and
  surrounding whitespace are mapped to `none` = NaN, which none of the
  engine's inputs in this development exercise).
* The component's mutable fields form `EngineState`; every event handler is a
  pure function from state (plus the event payload and an `Env` describing
  the DOM/clock collaborators) to state and the list of slots emitted on the
  `slotChange` output.
-/

namespace Calendar

/-- JavaScript `Math.round`: round half-up (toward +∞). -/
def jsRound (q : ℚ) : ℤ := ⌊q + 1 / 2⌋

/-- The component's `clamp(v, min, max) = Math.max(min, Math.min(max, v))`. -/
def clamp (v lo hi : ℚ) : ℚ := max lo (min hi v)

/-- The component's `snapToStep(mins, step) = Math.round(mins / step) * step`. -/
def snapToStep (mins step : ℚ) : ℚ := (jsRound (mins / step) : ℚ) * step

/-- JavaScript truncation (`Math.trunc`, the integer part used by `%`). -/
def jsTrunc (q : ℚ) : ℤ := if 0 ≤ q then ⌊q⌋ else ⌈q⌉

/-- JavaScript `%` on finite numbers: `a - b * trunc(a / b)`. -/
def jsMod (a b : ℚ) : ℚ := a - b * (jsTrunc (a / b) : ℚ)

/-- A JavaScript number that may be `NaN` or infinite.  Only the gesture
arithmetic needs the special values (they arise from dividing by a zero
track width); everything else stays in `ℚ`. -/
inductive JNum where
  | fin (q : ℚ)
  | nan
  | pinf
  | ninf
deriving DecidableEq, Repr

namespace JNum

/-- JavaScript addition (as used with at most one non-finite operand). -/
def jadd : JNum → JNum → JNum
  | fin a, fin b => fin (a + b)
  | nan, _ => nan
  | _, nan => nan
  | pinf, ninf => nan
  | ninf, pinf => nan
  | pinf, _ => pinf
  | _, pinf => pinf
  | ninf, _ => ninf
  | _, ninf => ninf

/-- JavaScript subtraction. -/
def jsub : JNum → JNum → JNum
  | fin a, fin b => fin (a - b)
  | nan, _ => nan
  | _, nan => nan
  | pinf, pinf => nan
  | ninf, ninf => nan
  | pinf, _ => pinf
  | _, pinf => ninf
  | ninf, _ => ninf
  | _, ninf => pinf

/-- JavaScript multiplication by a finite constant. -/
def jmul (a : JNum) (c : ℚ) : JNum :=
  match a with
  | fin q => fin (q * c)
  | nan => nan
  | pinf => if 0 < c then pinf else if c < 0 then ninf else nan
  | ninf => if 0 < c then ninf else if c < 0 then pinf else nan

/-- JavaScript division of two finite numbers: a zero divisor yields
`±Infinity` (or `NaN` for `0 / 0`) instead of raising an error. -/
def jdiv (a b : ℚ) : JNum :=
  if b = 0 then (if a = 0 then nan else if 0 < a then pinf else ninf)
  else fin (a / b)

/-- JavaScript division by a finite nonzero-intended constant. -/
def jdivC (a : JNum) (c : ℚ) : JNum :=
  match a with
  | fin q => jdiv q c
  | nan => nan
  | pinf => if 0 < c then pinf else if c < 0 then ninf else nan
  | ninf => if 0 < c then ninf else if c < 0 then pinf else nan

/-- The component's `clamp` applied to a possibly non-finite value:
`Math.max(lo, Math.min(hi, v))`.  `NaN` propagates through `min`/`max`;
`+∞` clamps to `max lo hi` and `-∞` to `lo`, exactly as the JavaScript
`Math.min`/`Math.max` compute it. -/
def jclamp (v : JNum) (lo hi : ℚ) : JNum :=
  match v with
  | fin q => fin (clamp q lo hi)
  | nan => nan
  | pinf => fin (max lo hi)
  | ninf => fin lo

/-- The component's `snapToStep` applied to a possibly non-finite value
(`Math.round` maps `NaN` to `NaN` and `±∞` to itself). -/
def jsnap (v : JNum) (step : ℚ) : JNum :=
  match v with
  | fin q => fin (snapToStep q step)
  | nan => nan
  | pinf => pinf
  | ninf => ninf

/-- JavaScript `Math.min` (NaN-propagating). -/
def jmin : JNum → JNum → JNum
  | fin a, fin b => fin (min a b)
  | nan, _ => nan
  | _, nan => nan
  | ninf, _ => ninf
  | _, ninf => ninf
  | pinf, b => b
  | a, pinf => a

/-- JavaScript `Math.max` (NaN-propagating). -/
def jmax : JNum → JNum → JNum
  | fin a, fin b => fin (max a b)
  | nan, _ => nan
  | _, nan => nan
  | pinf, _ => pinf
  | _, pinf => pinf
  | ninf, b => b
  | a, ninf => a

/-- JavaScript `<` (false whenever an operand is `NaN`). -/
def jlt : JNum → JNum → Bool
  | fin a, fin b => a < b
  | nan, _ => false
  | _, nan => false
  | pinf, _ => false
  | _, pinf => true
  | ninf, ninf => false
  | ninf, _ => true
  | _, ninf => false

/-- JavaScript `≤` (false whenever an operand is `NaN`). -/
def jle : JNum → JNum → Bool
  | fin a, fin b => a ≤ b
  | nan, _ => false
  | _, nan => false
  | _, pinf => true
  | pinf, _ => false
  | ninf, _ => true
  | _, ninf => false

/-- JavaScript `>`. -/
def jgt (a b : JNum) : Bool := jlt b a

/-- JavaScript `≥`. -/
def jge (a b : JNum) : Bool := jle b a

end JNum

/-! String utilities: JavaScript `split` with a one-character separator,
`Number(...)` conversion, number-to-string rendering and `padStart(2, "0")`. -/

/-- JavaScript `str.split(c)` for a one-character separator, on char lists.
`[].split = [[]]`, matching `"".split(c) = [""]`. -/
def splitCharL (c : Char) : List Char → List (List Char)
  | [] => [[]]
  | x :: xs =>
    if x = c then [] :: splitCharL c xs
    else
      match splitCharL c xs with
      | [] => [[x]]
      | h :: t => (x :: h) :: t

/-- JavaScript `str.split(c)` for a one-character separator. -/
def splitChar (c : Char) (s : String) : List String :=
  (splitCharL c s.data).map String.mk

/-- Value of a list of decimal digit characters (most significant first). -/
def digitsVal (l : List Char) : ℕ :=
  l.foldl (fun a c => a * 10 + (c.toNat - 48)) 0

/-- Whether every character of the list is a decimal digit. -/
def allDigits (l : List Char) : Bool := l.all Char.isDigit

/-- JavaScript `Number(str)` restricted to optional-sign decimal forms
(`""` is `0`; `"12"`, `"-3"`, `"+4"`, `"1.5"`, `".5"`, `"1."` parse; every
other shape — exponents, hex, `Infinity`, surrounding whitespace — is
modelled as `none` = `NaN`, and none of those shapes reach the engine's
conversions in this development). -/
def jsNumber (s : String) : Option ℚ :=
  match s.data with
  | [] => some 0
  | a :: r =>
    let sign : ℚ := if a = '-' then -1 else 1
    let body : List Char := if a = '-' ∨ a = '+' then r else a :: r
    match splitCharL '.' body with
    | [ip] =>
      if ip ≠ [] ∧ allDigits ip then some (sign * digitsVal ip) else none
    | [ip, fp] =>
      if (ip ≠ [] ∨ fp ≠ []) ∧ allDigits ip ∧ allDigits fp then
        some (sign * ((digitsVal ip : ℚ) + (digitsVal fp : ℚ) / 10 ^ fp.length))
      else none
    | _ => none

/-- Decimal digit rendering, structurally recursive on a fuel bound so that
it evaluates inside the kernel. -/
def natDigitsAux : ℕ → ℕ → List Char
  | 0, _ => []
  | fuel + 1, n =>
    if n < 10 then [Char.ofNat (48 + n)]
    else natDigitsAux fuel (n / 10) ++ [Char.ofNat (48 + n % 10)]

/-- Decimal digit list of a natural number, most significant first
(JavaScript `Number.prototype.toString` on a nonnegative integer). -/
def natDigits (n : ℕ) : List Char := natDigitsAux (n + 1) n

/-- JavaScript `toString()` of an integer-valued number. -/
def intToString (i : ℤ) : String :=
  if i < 0 then String.mk ('-' :: natDigits i.natAbs) else String.mk (natDigits i.natAbs)

/-- JavaScript `toString()` of a natural number. -/
def natToString (n : ℕ) : String := String.mk (natDigits n)

/-- JavaScript `str.padStart(2, "0")`. -/
def padTwo (s : String) : String :=
  if s.data.length ≥ 2 then s else String.mk (List.replicate (2 - s.data.length) '0') ++ s

/-! Data model (fields as used by `calendar.component.ts`; the `calendar.types`
file itself is not in the sources, so the field sets are the ones the
component constructs and reads). -/

/-- A JavaScript identity value: slot ids are strings or numbers, and the
component also compares them against `null` (the create path passes `null`)
and `undefined` (an absent `id` field).  Strict equality `===` on these
values is plain decidable equality. -/
inductive IdVal where
  | undefV
  | nullV
  | numV (n : ℤ)
  | strV (s : String)
deriving DecidableEq, Repr

/-- JavaScript `String(x)` on an identity value. -/
def idToString : IdVal → String
  | .numV n => intToString n
  | .strV s => s
  | .nullV => "null"
  | .undefV => "undefined"

/-- The component's `s.id ?? loc-idx` fallback (`??` fires on both
`null` and `undefined`). -/
def resolveId (id : IdVal) (loc : String) (idx : ℕ) : IdVal :=
  match id with
  | .undefV => .strV (loc ++ "-" ++ natToString idx)
  | .nullV => .strV (loc ++ "-" ++ natToString idx)
  | x => x

/-- A committed slot, as the component reads and writes it. -/
structure CompactCalendarSlot where
  id : IdVal
  tn : String
  carrier : Option String
  location : String
  dateTimeFrom : String
  dateTimeTo : String
  color : Option String
deriving DecidableEq, Repr

/-- A working-hours entry; `endS` models the entry's `end` field
(`end` is a Lean keyword). -/
structure WorkingHoursEntry where
  start : String
  endS : String
deriving DecidableEq, Repr

/-- The `workingHours` input: a record keyed by location, modelled as an
association list with unique keys (`lookup` is JavaScript property access). -/
abbrev WorkingHoursMap := List (String × List WorkingHoursEntry)

/-- A rendered slot; `left`/`width` are `JNum` because a live drag preview
can write `NaN` percentages into them (a full rebuild always writes finite
values). -/
structure SlotViewModel where
  id : IdVal
  tn : String
  carrier : String
  left : JNum
  width : JNum
  color : String
  invalid : Bool
  raw : CompactCalendarSlot
deriving DecidableEq, Repr

/-- A non-working overlay segment (`left`/`width` percentages). -/
structure Seg where
  left : ℚ
  width : ℚ
deriving DecidableEq, Repr

/-- The part of a `getBoundingClientRect()` result the engine reads. -/
structure Rect where
  left : ℚ
  width : ℚ
deriving DecidableEq, Repr

/-- Drag sub-kind chosen at pointer-down. -/
inductive DragType where
  | move
  | resizeStart
  | resizeEnd
deriving DecidableEq, Repr

/-- The drag context captured at pointer-down on a slot (`trackWidth` is the
only field of the captured `trackRect` the handlers read). -/
structure DragContext where
  slotId : IdVal
  origLocation : String
  currentLocation : String
  type : DragType
  trackWidth : ℚ
  startX : ℚ
  startFromMins : ℚ
  startToMins : ℚ
  currentFromMins : JNum
  currentToMins : JNum
deriving DecidableEq, Repr

/-- The create context captured at pointer-down on empty track.  The DOM
`trackEl`/`selectionEl` references are external; the track's rect is
re-measured per event, so the move/up events carry it. -/
structure CreateContext where
  location : String
  startX : ℚ
  startMins : JNum
deriving DecidableEq, Repr

/-- The component's mutable fields that the interaction engine reads or
writes (visual-only fields such as the selection element's style are not
state). -/
structure EngineState where
  data : List CompactCalendarSlot
  workingHours : WorkingHoursMap
  dateLabel : String
  showNowLine : Bool
  locations : List String
  slotsByLocation : List (String × List SlotViewModel)
  nonWorkingByLocation : List (String × List Seg)
  nowPercent : ℚ
  currentDayStart : Option String
  dragCtx : Option DragContext
  createCtx : Option CreateContext
  invalidFlashSlotId : Option IdVal
deriving DecidableEq, Repr

/-- The external collaborators: wall clock, locale formatting, and the id
generator used when a slot is created. -/
structure Env where
  isSameDayAsNow : String → Bool
  nowMinutes : ℚ
  localeDateString : String → String
  nowIso : String
  freshId : IdVal

/-! Time codec. -/

/-- The component's `toMinutesFromMidnight`: parse the `HH:mm[...]` part
after the first `T` leniently (`Number` conversion per segment, a missing
minute segment counts as `0`, any `NaN` yields `0`). -/
def toMinutesFromMidnight (iso : String) : ℚ :=
  if iso.data = [] then 0
  else
    let parts := splitChar 'T' iso
    if parts.length < 2 then 0
    else
      let timePart := parts.getD 1 ""
      let hm := splitChar ':' timePart
      let hh := jsNumber (hm.headD "")
      let mm :=
        match hm[1]? with
        | some s => jsNumber s
        | none => some 0
      match hh, mm with
      | some h, some m => h * 60 + m
      | _, _ => 0

/-- JavaScript `toString()` of the possibly non-finite, possibly
non-integral value fed to the ISO time template.  Every value the engine
actually feeds in is an integer (snapped) or `NaN`; the non-integral
rendering is a placeholder for that unreachable case. -/
def jnumToString (v : JNum) : String :=
  match v with
  | .fin q => if q.den = 1 then intToString q.num else intToString q.num ++ "/" ++ natToString q.den
  | .nan => "NaN"
  | .pinf => "Infinity"
  | .ninf => "-Infinity"

/-- The time part `HH:mm:00` built by `minutesToIso`
(`Math.floor(mins / 60)` and `mins % 60`, both zero-padded). -/
def isoTimeString (mins : JNum) : String :=
  match mins with
  | .fin q => padTwo (intToString ⌊q / 60⌋) ++ ":" ++ padTwo (jnumToString (JNum.fin (jsMod q 60))) ++ ":00"
  | .nan => "NaN:NaN:00"
  | .pinf => "Infinity:NaN:00"
  | .ninf => "-Infinity:NaN:00"

/-- The component's `minutesToIso`: keep the date part of `baseIso`, replace
the time with `mins` rendered as `HH:mm:00`. -/
def minutesToIso (baseIso : String) (mins : JNum) : String :=
  if baseIso.data = [] then baseIso
  else String.mk ((splitCharL 'T' baseIso.data).headD []) ++ "T" ++ isoTimeString mins

/-! Working hours and conflicts. -/

/-- The component's `getWorkingBounds`: first entry for the location, both
halves of `"HH:mm"` converted with `Number`; a missing segment or a `NaN`
in any of the four conversions makes the whole result `null`. -/
def getWorkingBounds (wh : WorkingHoursMap) (location : String) : Option (ℚ × ℚ) :=
  match wh.lookup location with
  | none => none
  | some [] => none
  | some (w :: _) =>
    let ps := splitChar ':' w.start
    let pe := splitChar ':' w.endS
    match ps[0]?.bind jsNumber, ps[1]?.bind jsNumber, pe[0]?.bind jsNumber, pe[1]?.bind jsNumber with
    | some sh, some sm, some eh, some em => some (sh * 60 + sm, eh * 60 + em)
    | _, _, _, _ => none

/-- The component's `hasConflict`: some other slot of the same location
(excluding `slotId`) overlaps the candidate under
`!(toMins <= a || fromMins >= b)`. -/
def hasConflict (data : List CompactCalendarSlot) (slotId : IdVal) (location : String)
    (fromMins toMins : JNum) : Bool :=
  let others := data.filter (fun s => s.location == location && s.id != slotId)
  others.any (fun s =>
    let a := toMinutesFromMidnight s.dateTimeFrom
    let b := toMinutesFromMidnight s.dateTimeTo
    !(JNum.jle toMins (JNum.fin a) || JNum.jge fromMins (JNum.fin b)))

/-- The working-hours test of the pointer-up drag branch:
`!!bounds && (from < bounds.start || to > bounds.end)`. -/
def outOfWorkingB (wh : WorkingHoursMap) (location : String) (fromMins toMins : JNum) : Bool :=
  match getWorkingBounds wh location with
  | none => false
  | some (s, e) => JNum.jlt fromMins (JNum.fin s) || JNum.jgt toMins (JNum.fin e)

/-! View-model builder. -/

/-- Truncation of an integer to a signed 32-bit value (JavaScript `| 0`). -/
def toInt32 (x : ℤ) : ℤ := (x + 2 ^ 31) % 2 ^ 32 - 2 ^ 31

/-- The component's `hashCode`: `h = (h << 5) - h + charCode; h |= 0` over
the characters (code points; identical to UTF-16 units on the BMP strings
this component hashes). -/
def hashCode (s : String) : ℤ :=
  s.data.foldl (fun h c => toInt32 (toInt32 (h * 32) - h + c.toNat)) 0

/-- The fixed color palette (`calendar.consts.ts`). -/
def palette : List String := ["#8B5CF6", "#22D3EE", "#0EA5E9", "#FB923C", "#A855F7"]

/-- The per-slot mapper inside `rebuild`: parse, clamp, snap, floor the
rendered span at 5 minutes, and resolve the color (explicit color, else a
hash-selected palette entry). -/
def slotVMOf (s : CompactCalendarSlot) (loc : String) (idx : ℕ) : SlotViewModel :=
  let fromM := toMinutesFromMidnight s.dateTimeFrom
  let toM := toMinutesFromMidnight s.dateTimeTo
  let clampedFrom := snapToStep (clamp fromM 0 1440) 30
  let clampedTo := snapToStep (clamp toM 0 1440) 30
  let span := max 5 (clampedTo - clampedFrom)
  let rid := resolveId s.id loc idx
  let autoColor := palette.getD ((hashCode (idToString rid)).natAbs % palette.length) ""
  { id := rid
    tn := s.tn
    carrier := s.carrier.getD ""
    left := JNum.fin (clampedFrom / 1440 * 100)
    width := JNum.fin (span / 1440 * 100)
    color := s.color.getD autoColor
    invalid := false
    raw := s }

/-- First-seen-order deduplication (`Array.from(new Set(...))`). -/
def dedupAux : List String → List String → List String
  | [], _ => []
  | x :: r, seen => if x ∈ seen then dedupAux r seen else x :: dedupAux r (x :: seen)

/-- First-seen-order deduplication of the location list. -/
def listDedup (l : List String) : List String := dedupAux l []

/-- The local `toMinutes` helper of `buildNonWorking` (`NaN` as `none`). -/
def timeToMinutesNW (t : String) : Option ℚ :=
  let p := splitChar ':' t
  match p[0]?.bind jsNumber, p[1]?.bind jsNumber with
  | some h, some m => some (h * 60 + m)
  | _, _ => none

/-- The component's `buildNonWorking`: the complement of the first
working-hours entry within the day, as percentage segments (a `NaN` bound
fails its `>` / `<` test and produces no segment). -/
def buildNonWorking (wh : WorkingHoursMap) (locations : List String) : List (String × List Seg) :=
  locations.map (fun loc =>
    (loc,
      match wh.lookup loc with
      | none => []
      | some [] => []
      | some (w :: _) =>
        let startWh := timeToMinutesNW w.start
        let endWh := timeToMinutesNW w.endS
        let seg1 : List (ℚ × ℚ) :=
          match startWh with
          | some v => if 0 < v then [(0, v)] else []
          | none => []
        let seg2 : List (ℚ × ℚ) :=
          match endWh with
          | some v => if v < 1440 then [(v, 1440)] else []
          | none => []
        (seg1 ++ seg2).map (fun g => { left := g.1 / 1440 * 100, width := (g.2 - g.1) / 1440 * 100 })))

/-- Replace the value stored under the (unique) key `loc`. -/
def updateAssoc (sbl : List (String × List SlotViewModel)) (loc : String)
    (l : List SlotViewModel) : List (String × List SlotViewModel) :=
  match sbl with
  | [] => []
  | kv :: r => if kv.1 = loc then (kv.1, l) :: r else kv :: updateAssoc r loc l

/-- Set `invalid` on the first view model with the given id (the `find`
inside `applyInvalidFlash`). -/
def markVM (fid : IdVal) : List SlotViewModel → List SlotViewModel
  | [] => []
  | v :: r => if v.id = fid then { v with invalid := true } :: r else v :: markVM fid r

/-- Walk the locations in order and flag the first list containing the
flash target (the loop of `applyInvalidFlash`, which breaks after one hit). -/
def applyFlashAux (fid : IdVal) : List String → List (String × List SlotViewModel) →
    List (String × List SlotViewModel)
  | [], sbl => sbl
  | loc :: rest, sbl =>
    match sbl.lookup loc with
    | none => applyFlashAux fid rest sbl
    | some l =>
      if l.any (fun v => v.id == fid) then updateAssoc sbl loc (markVM fid l)
      else applyFlashAux fid rest sbl

/-- The component's `applyInvalidFlash` (no-op without a flash target). -/
def applyInvalidFlash (flash : Option IdVal) (locations : List String)
    (sbl : List (String × List SlotViewModel)) : List (String × List SlotViewModel) :=
  match flash with
  | none => sbl
  | some fid => applyFlashAux fid locations sbl

/-- The component's `clearInvalidFlags`. -/
def clearInvalidFlags (locations : List String)
    (sbl : List (String × List SlotViewModel)) : List (String × List SlotViewModel) :=
  sbl.map (fun kv =>
    if kv.1 ∈ locations then (kv.1, kv.2.map (fun v => { v with invalid := false })) else kv)

/-- The component's `updateNowPercent`, with the wall clock supplied by
`Env`: hidden (`-1`) when the indicator is off, no day is set, or the
displayed day is not today. -/
def updateNowPercent (showNowLine : Bool) (currentDayStart : Option String) (env : Env) : ℚ :=
  if !showNowLine then -1
  else
    match currentDayStart with
    | none => -1
    | some base =>
      if !env.isSameDayAsNow base then -1
      else clamp (env.nowMinutes / 1440 * 100) 0 100

/-- The component's `rebuild`: full-replace recomputation of the derived
view state from `data` and `workingHours`.  With no data every derived
collection is cleared and the now indicator is hidden. -/
def rebuild (st : EngineState) (env : Env) : EngineState :=
  match st.data with
  | [] =>
    { st with
      locations := []
      slotsByLocation := []
      nonWorkingByLocation := []
      nowPercent := -1 }
  | first :: _ =>
    let currentDayStart := some first.dateTimeFrom
    let dateLabel := if st.dateLabel = "" then env.localeDateString first.dateTimeFrom else st.dateLabel
    let locations := listDedup (st.data.map (fun d => d.location))
    let sbl := locations.map (fun loc =>
      (loc, ((st.data.filter (fun d => d.location == loc)).enum).map (fun p => slotVMOf p.2 loc p.1)))
    { st with
      locations := locations
      slotsByLocation := applyInvalidFlash st.invalidFlashSlotId locations sbl
      nonWorkingByLocation := buildNonWorking st.workingHours locations
      nowPercent := updateNowPercent st.showNowLine currentDayStart env
      currentDayStart := currentDayStart
      dateLabel := dateLabel }

/-! Gesture handlers. -/

/-- The candidate interval computed by a drag pointer-move from the gesture's
start interval and the (possibly non-finite) minute delta: translate with the
span fixed for `move`; clamp the moving edge against the fixed edge with the
30-minute minimum span for the resize kinds; snap the moving edge to 30. -/
def dragCandidate (ty : DragType) (startFromMins startToMins : ℚ) (deltaMinutes : JNum) :
    JNum × JNum :=
  match ty with
  | .move =>
    let span := startToMins - startFromMins
    let rawFrom := JNum.jclamp (JNum.jadd (JNum.fin startFromMins) deltaMinutes) 0 (1440 - span)
    let newFrom := JNum.jsnap rawFrom 30
    (newFrom, JNum.jadd newFrom (JNum.fin span))
  | .resizeStart =>
    let rawFrom := JNum.jclamp (JNum.jadd (JNum.fin startFromMins) deltaMinutes) 0 (startToMins - 30)
    (JNum.jsnap rawFrom 30, JNum.fin startToMins)
  | .resizeEnd =>
    let rawTo := JNum.jclamp (JNum.jadd (JNum.fin startToMins) deltaMinutes) (startFromMins + 30) 1440
    (JNum.fin startFromMins, JNum.jsnap rawTo 30)

/-- The component's `updateSlotViewModel`: remove the dragged slot's view
model from whichever location list holds it, re-snap and re-clamp its
position, and push it onto the target location's list (creating the entry
when absent). -/
def updateSlotViewModel (locations : List String) (sbl : List (String × List SlotViewModel))
    (slotId : IdVal) (location : String) (fromMins toMins : JNum) (invalid : Bool) :
    List (String × List SlotViewModel) :=
  let found : Option (SlotViewModel × List (String × List SlotViewModel)) :=
    removeVMAux slotId locations sbl
  match found with
  | none => sbl
  | some (vm, sbl') =>
    let clampedFrom := JNum.jsnap (JNum.jclamp fromMins 0 1440) 30
    let clampedTo := JNum.jsnap (JNum.jclamp toMins 0 1440) 30
    let span := JNum.jmax (JNum.fin 5) (JNum.jsub clampedTo clampedFrom)
    let vm' :=
      { vm with
        left := JNum.jmul (JNum.jdivC clampedFrom 1440) 100
        width := JNum.jmul (JNum.jdivC span 1440) 100
        invalid := invalid }
    match sbl'.lookup location with
    | some l => updateAssoc sbl' location (l ++ [vm'])
    | none => sbl' ++ [(location, [vm'])]
where
  /-- The removal loop: first location (in `locations` order) whose list
  contains the id gives up that view model (`splice`). -/
  removeVMAux (slotId : IdVal) : List String → List (String × List SlotViewModel) →
      Option (SlotViewModel × List (String × List SlotViewModel))
    | [], _ => none
    | loc :: rest, sbl =>
      match sbl.lookup loc with
      | none => removeVMAux slotId rest sbl
      | some l =>
        match l.findIdx? (fun s => s.id == slotId) with
        | some i =>
          match l[i]? with
          | some vm => some (vm, updateAssoc sbl loc (l.eraseIdx i))
          | none => none
        | none => removeVMAux slotId rest sbl

/-- The component's `commitDragToData`: snap-and-clamp the final candidate,
rewrite the subject slot's location and datetimes, and return the updated
array together with the slots emitted on `slotChange` (the updated slot when
it exists, nothing otherwise). -/
def commitDragToData (data : List CompactCalendarSlot) (slotId : IdVal) (newLocation : String)
    (newFrom newTo : JNum) : List CompactCalendarSlot × List CompactCalendarSlot :=
  let fromClamped := JNum.jsnap (JNum.jclamp newFrom 0 1440) 30
  let toClamped := JNum.jsnap (JNum.jclamp newTo 0 1440) 30
  let updated := data.map (fun slot =>
    if slot.id = slotId then
      { slot with
        location := newLocation
        dateTimeFrom := minutesToIso slot.dateTimeFrom fromClamped
        dateTimeTo := minutesToIso slot.dateTimeTo toClamped }
    else slot)
  (updated, (updated.find? (fun s => s.id == slotId)).toList)

/-- The component's `onSlotPointerDownFromChild`: capture the drag context
from the slot's raw datetimes and the track rect, and cancel any in-progress
create. -/
def onSlotPointerDownFromChild (st : EngineState) (vm : SlotViewModel) (location : String)
    (ty : DragType) (clientX : ℚ) (trackRect : Rect) : EngineState :=
  let fromM := toMinutesFromMidnight vm.raw.dateTimeFrom
  let toM := toMinutesFromMidnight vm.raw.dateTimeTo
  let startFrom := clamp fromM 0 1440
  let startTo := clamp toM 0 1440
  { st with
    dragCtx := some
      { slotId := vm.id
        origLocation := location
        currentLocation := location
        type := ty
        trackWidth := trackRect.width
        startX := clientX
        startFromMins := startFrom
        startToMins := startTo
        currentFromMins := JNum.fin startFrom
        currentToMins := JNum.fin startTo }
    createCtx := none }

/-- The component's `onTrackPointerDown`: ignore non-left buttons and clicks
on slots; otherwise capture the create context at the snapped pointer
position and cancel any in-progress drag. -/
def onTrackPointerDown (st : EngineState) (clientX : ℚ) (button : ℕ) (targetIsSlot : Bool)
    (trackRect : Rect) (location : String) : EngineState :=
  if button ≠ 0 then st
  else if targetIsSlot then st
  else
    let relX := clamp (clientX - trackRect.left) 0 trackRect.width
    let startMins := JNum.jsnap (JNum.jmul (JNum.jdiv relX trackRect.width) 1440) 30
    { st with
      createCtx := some { location := location, startX := clientX, startMins := startMins }
      dragCtx := none }

/-- The component's `onWindowPointerMove`.  In the drag branch the pixel
delta is divided by the captured track width (unguarded, so a zero width
yields a non-finite delta), the candidate is recomputed and the view model
is live-updated.  The create branch only restyles the selection element,
which is not engine state. -/
def onWindowPointerMove (st : EngineState) (clientX : ℚ) (locAtPoint : Option String)
    (_createRect : Rect) : EngineState :=
  match st.dragCtx with
  | some ctx =>
    let dx := clientX - ctx.startX
    let deltaMinutes := JNum.jmul (JNum.jdiv dx ctx.trackWidth) 1440
    let cand := dragCandidate ctx.type ctx.startFromMins ctx.startToMins deltaMinutes
    let targetLoc := locAtPoint.getD ctx.currentLocation
    { st with
      dragCtx := some
        { ctx with
          currentLocation := targetLoc
          currentFromMins := cand.1
          currentToMins := cand.2 }
      slotsByLocation :=
        updateSlotViewModel st.locations st.slotsByLocation ctx.slotId targetLoc cand.1 cand.2 false }
  | none => st

/-- The component's `onWindowPointerUp`.  Drag branch: validate the final
candidate, then revert (rebuild from unchanged data + invalid flash, no
emission) or commit (rewrite data, rebuild, emit the updated slot).  Create
branch: normalize the snapped endpoints, silently drop sub-30-minute,
out-of-hours or conflicting candidates, otherwise append a fresh slot,
rebuild and emit it. -/
def onWindowPointerUp (st : EngineState) (clientX : ℚ) (locAtPoint : Option String)
    (createRect : Rect) (env : Env) : EngineState × List CompactCalendarSlot :=
  match st.dragCtx with
  | some ctx =>
    let targetLoc := locAtPoint.getD ctx.currentLocation
    let outOfWorking := outOfWorkingB st.workingHours targetLoc ctx.currentFromMins ctx.currentToMins
    let conflict := hasConflict st.data ctx.slotId targetLoc ctx.currentFromMins ctx.currentToMins
    if conflict || outOfWorking then
      let st1 := rebuild st env
      let st2 :=
        { st1 with
          invalidFlashSlotId := some ctx.slotId
          slotsByLocation := applyInvalidFlash (some ctx.slotId) st1.locations
            (clearInvalidFlags st1.locations st1.slotsByLocation) }
      ({ st2 with dragCtx := none }, [])
    else
      let r := commitDragToData st.data ctx.slotId targetLoc ctx.currentFromMins ctx.currentToMins
      let st1 := rebuild { st with data := r.1 } env
      ({ st1 with dragCtx := none }, r.2)
  | none =>
    match st.createCtx with
    | some c =>
      let st0 := { st with createCtx := none }
      let relX := clamp (clientX - createRect.left) 0 createRect.width
      let curMins := JNum.jsnap (JNum.jmul (JNum.jdiv relX createRect.width) 1440) 30
      let fromM := JNum.jmin c.startMins curMins
      let toM := JNum.jmax c.startMins curMins
      if JNum.jlt (JNum.jsub toM fromM) (JNum.fin 30) then (st0, [])
      else if
          (match getWorkingBounds st.workingHours c.location with
           | none => false
           | some (s, e) => JNum.jlt fromM (JNum.fin s) || JNum.jgt toM (JNum.fin e)) then
        (st0, [])
      else if hasConflict st.data IdVal.nullV c.location fromM toM then (st0, [])
      else
        let baseIso := ((st.data.head?).map (fun s => s.dateTimeFrom)).getD env.nowIso
        let newSlot : CompactCalendarSlot :=
          { id := env.freshId
            tn := "NEW"
            carrier := some ""
            location := c.location
            dateTimeFrom := minutesToIso baseIso fromM
            dateTimeTo := minutesToIso baseIso toM
            color := none }
        let st1 := rebuild { st0 with data := st.data ++ [newSlot] } env
        (st1, [newSlot])
    | none => (st, [])

/-! The event-driven step relation. -/

/-- One event delivered to the engine. -/
inductive Input where
  | ngInit
  | inputsChanged (data : List CompactCalendarSlot) (wh : WorkingHoursMap) (dateLabel : String)
  | slotPointerDown (vm : SlotViewModel) (location : String) (ty : DragType) (clientX : ℚ)
      (trackRect : Rect)
  | trackPointerDown (clientX : ℚ) (button : ℕ) (targetIsSlot : Bool) (trackRect : Rect)
      (location : String)
  | pointerMove (clientX : ℚ) (locAtPoint : Option String) (createRect : Rect)
  | pointerUp (clientX : ℚ) (locAtPoint : Option String) (createRect : Rect)
  | nowTick
  | invalidFlashEnd

/-- Dispatch one event: the new state and the slots emitted on `slotChange`. -/
def engineStep (st : EngineState) (i : Input) (env : Env) : EngineState × List CompactCalendarSlot :=
  match i with
  | .ngInit => (rebuild st env, [])
  | .inputsChanged d w lbl =>
    (rebuild { st with data := d, workingHours := w, dateLabel := lbl } env, [])
  | .slotPointerDown vm loc ty x rect => (onSlotPointerDownFromChild st vm loc ty x rect, [])
  | .trackPointerDown x button onSlot rect loc =>
    (onTrackPointerDown st x button onSlot rect loc, [])
  | .pointerMove x locAt rect => (onWindowPointerMove st x locAt rect, [])
  | .pointerUp x locAt rect => onWindowPointerUp st x locAt rect env
  | .nowTick =>
    ({ st with nowPercent := updateNowPercent st.showNowLine st.currentDayStart env }, [])
  | .invalidFlashEnd =>
    ({ st with
        invalidFlashSlotId := none
        slotsByLocation := clearInvalidFlags st.locations st.slotsByLocation }, [])

/-- The component's state right after construction, with the host's initial
inputs bound: no derived view state, no gesture contexts, no flash. -/
def initState (data : List CompactCalendarSlot) (wh : WorkingHoursMap) (dateLabel : String)
    (showNowLine : Bool) : EngineState :=
  { data := data
    workingHours := wh
    dateLabel := dateLabel
    showNowLine := showNowLine
    locations := []
    slotsByLocation := []
    nonWorkingByLocation := []
    nowPercent := -1
    currentDayStart := none
    dragCtx := none
    createCtx := none
    invalidFlashSlotId := none }

/-- States the engine can reach from construction through any event
sequence. -/
inductive Reachable : EngineState → Prop where
  | init (data : List CompactCalendarSlot) (wh : WorkingHoursMap) (dateLabel : String)
      (showNowLine : Bool) : Reachable (initState data wh dateLabel showNowLine)
  | step {st : EngineState} (h : Reachable st) (i : Input) (env : Env) :
      Reachable (engineStep st i env).1

/-! Concrete instances used by the theorems below. -/

/-- A concrete environment: the displayed day is never today, ids are fixed. -/
def envModel : Env :=
  { isSameDayAsNow := fun _ => false
    nowMinutes := 0
    localeDateString := fun _ => "11/6/2025"
    nowIso := "2025-11-06T00:00:00"
    freshId := IdVal.numV 99 }

/-- A committed slot occupying `[60, 120)` in location `"L"`. -/
def slotB : CompactCalendarSlot :=
  { id := IdVal.numV 2
    tn := "B"
    carrier := none
    location := "L"
    dateTimeFrom := "2025-11-06T01:00:00"
    dateTimeTo := "2025-11-06T02:00:00"
    color := none }

/-- A drag context captured on a track measured with zero pixel width. -/
def zeroWidthCtx : DragContext :=
  { slotId := IdVal.numV 1
    origLocation := "L"
    currentLocation := "L"
    type := DragType.move
    trackWidth := 0
    startX := 0
    startFromMins := 60
    startToMins := 120
    currentFromMins := JNum.fin 60
    currentToMins := JNum.fin 120 }

/-- A state in the middle of a drag over the zero-width track. -/
def zeroWidthState : EngineState :=
  { initState [] [] "" true with dragCtx := some zeroWidthCtx }

/-- A create context whose pointer-down snapped to minute 30 on `"R2"`. -/
def backwardCreateCtx : CreateContext :=
  { location := "R2", startX := 30, startMins := JNum.fin 30 }

/-- A state mid create-drag on `"R2"` with no committed slots. -/
def backwardCreateState : EngineState :=
  { initState [] [] "" true with createCtx := some backwardCreateCtx }

/-- A drag context whose final candidate `[90, 150]` overlaps `slotB`. -/
def conflictCtx : DragContext :=
  { slotId := IdVal.numV 1
    origLocation := "L"
    currentLocation := "L"
    type := DragType.move
    trackWidth := 1440
    startX := 0
    startFromMins := 0
    startToMins := 60
    currentFromMins := JNum.fin 90
    currentToMins := JNum.fin 150 }

/-- A state mid-drag whose candidate conflicts with the committed `slotB`. -/
def conflictState : EngineState :=
  { initState [slotB] [] "" true with dragCtx := some conflictCtx }

/-- A committed slot whose 20-minute span is off the 30-minute grid. -/
def shortSlot : CompactCalendarSlot :=
  { id := IdVal.numV 7
    tn := "S"
    carrier := none
    location := "L"
    dateTimeFrom := "2025-11-06T00:00:00"
    dateTimeTo := "2025-11-06T00:20:00"
    color := none }

/-- A move-drag context over the off-grid `shortSlot`. -/
def shortMoveCtx : DragContext :=
  { slotId := IdVal.numV 7
    origLocation := "L"
    currentLocation := "L"
    type := DragType.move
    trackWidth := 1440
    startX := 0
    startFromMins := 0
    startToMins := 20
    currentFromMins := JNum.fin 0
    currentToMins := JNum.fin 20 }

/-- A state mid move-drag over the off-grid `shortSlot`. -/
def shortMoveState : EngineState :=
  { initState [shortSlot] [] "" true with dragCtx := some shortMoveCtx }

/-- A grid-aligned slot `[420, 600)` (07:00-10:00) in `"L"`. -/
def c3Slot : CompactCalendarSlot :=
  { id := IdVal.numV 1
    tn := "G"
    carrier := none
    location := "L"
    dateTimeFrom := "2025-11-06T07:00:00"
    dateTimeTo := "2025-11-06T10:00:00"
    color := none }

/-- A move-drag context over `c3Slot` on a 1440-pixel track. -/
def c3MoveCtx : DragContext :=
  { slotId := IdVal.numV 1
    origLocation := "L"
    currentLocation := "L"
    type := DragType.move
    trackWidth := 1440
    startX := 0
    startFromMins := 420
    startToMins := 600
    currentFromMins := JNum.fin 420
    currentToMins := JNum.fin 600 }

/-- A state mid move-drag over `c3Slot`. -/
def c3MoveState : EngineState :=
  { initState [c3Slot] [] "" true with dragCtx := some c3MoveCtx }

/-- A committed slot whose 10-minute span is below one grid step. -/
def tinySlot : CompactCalendarSlot :=
  { id := IdVal.numV 3
    tn := "T"
    carrier := none
    location := "L"
    dateTimeFrom := "2025-11-06T00:00:00"
    dateTimeTo := "2025-11-06T00:10:00"
    color := none }

/-- A resize-start drag context over the 10-minute `tinySlot`. -/
def tinyCtx : DragContext :=
  { slotId := IdVal.numV 3
    origLocation := "L"
    currentLocation := "L"
    type := DragType.resizeStart
    trackWidth := 1440
    startX := 0
    startFromMins := 0
    startToMins := 10
    currentFromMins := JNum.fin 0
    currentToMins := JNum.fin 10 }

/-- A state mid resize-start over `tinySlot`. -/
def tinyState : EngineState :=
  { initState [tinySlot] [] "" true with dragCtx := some tinyCtx }

/-- A grid-aligned slot `[60, 120)` used by the resize witness. -/
def c4Slot : CompactCalendarSlot :=
  { id := IdVal.numV 4
    tn := "R"
    carrier := none
    location := "L"
    dateTimeFrom := "2025-11-06T01:00:00"
    dateTimeTo := "2025-11-06T02:00:00"
    color := none }

/-- A resize-start drag context over `c4Slot`. -/
def c4Ctx : DragContext :=
  { slotId := IdVal.numV 4
    origLocation := "L"
    currentLocation := "L"
    type := DragType.resizeStart
    trackWidth := 1440
    startX := 0
    startFromMins := 60
    startToMins := 120
    currentFromMins := JNum.fin 60
    currentToMins := JNum.fin 120 }

/-- A state mid resize-start over `c4Slot`. -/
def c4State : EngineState :=
  { initState [c4Slot] [] "" true with dragCtx := some c4Ctx }

/-! Theorems.  First, facts about the split and number-conversion helpers. -/

theorem splitCharL_ne_nil (c : Char) (l : List Char) : splitCharL c l ≠ [] := by
  induction l with
  | nil => simp [splitCharL]
  | cons x xs ih =>
    by_cases hx : x = c
    · simp [splitCharL, hx]
    · simp only [splitCharL, if_neg hx]
      cases h : splitCharL c xs with
      | nil => exact absurd h ih
      | cons a t => simp

theorem splitCharL_of_not_mem (c : Char) (l : List Char) (h : c ∉ l) :
    splitCharL c l = [l] := by
  induction l with
  | nil => rfl
  | cons x xs ih =>
    have hx : x ≠ c := fun e => h (e ▸ List.mem_cons_self x xs)
    have hxs : c ∉ xs := fun m => h (List.mem_cons_of_mem _ m)
    simp only [splitCharL, if_neg hx, ih hxs]

theorem splitCharL_append (c : Char) (d r : List Char) (h : c ∉ d) :
    splitCharL c (d ++ c :: r) = d :: splitCharL c r := by
  induction d with
  | nil => simp [splitCharL]
  | cons x xs ih =>
    have hx : x ≠ c := fun e => h (e ▸ List.mem_cons_self x xs)
    have hxs : c ∉ xs := fun m => h (List.mem_cons_of_mem _ m)
    simp only [List.cons_append, splitCharL, if_neg hx, List.append_eq, ih hxs]

theorem splitCharL_headD_append (c : Char) (a b : List Char) (h : c ∉ a) :
    (splitCharL c (a ++ b)).headD [] = a ++ (splitCharL c b).headD [] := by
  induction a with
  | nil => simp
  | cons x xs ih =>
    have hx : x ≠ c := fun e => h (e ▸ List.mem_cons_self x xs)
    have hxs : c ∉ xs := fun m => h (List.mem_cons_of_mem _ m)
    simp only [List.cons_append, splitCharL, if_neg hx]
    cases hs : splitCharL c (xs ++ b) with
    | nil => exact absurd hs (splitCharL_ne_nil c _)
    | cons hd tl =>
      have := ih hxs
      rw [hs] at this
      simp only [List.headD_cons] at this
      simp [this]

theorem splitCharL_headD_cons_self (c : Char) (b : List Char) :
    (splitCharL c (c :: b)).headD [] = [] := by
  simp [splitCharL]

theorem splitCharL_headD_not_mem (c : Char) (l : List Char) :
    c ∉ (splitCharL c l).headD [] := by
  induction l with
  | nil => simp [splitCharL]
  | cons x xs ih =>
    by_cases hx : x = c
    · simp [splitCharL, hx]
    · simp only [splitCharL, if_neg hx]
      cases hs : splitCharL c xs with
      | nil => exact absurd hs (splitCharL_ne_nil c _)
      | cons hd tl =>
        rw [hs] at ih
        simp only [List.headD_cons] at ih ⊢
        intro hm
        rcases List.mem_cons.mp hm with h1 | h2
        · exact hx h1.symm
        · exact ih h2

theorem not_mem_of_allDigits (l : List Char) (h : allDigits l = true) (c : Char)
    (hc : c.isDigit = false) : c ∉ l := by
  intro hm
  have := List.all_eq_true.mp h c hm
  rw [hc] at this
  exact Bool.false_ne_true this

theorem jsNumber_digits (s : String) (h1 : s.data ≠ []) (h2 : allDigits s.data = true) :
    jsNumber s = some (digitsVal s.data) := by
  cases hs : s.data with
  | nil => exact absurd hs h1
  | cons a r =>
    have ha : a.isDigit = true := by
      have := List.all_eq_true.mp (hs ▸ h2) a (List.mem_cons_self a r)
      exact this
    have hminus : a ≠ '-' := by intro e; rw [e] at ha; exact absurd ha (by decide)
    have hplus : a ≠ '+' := by intro e; rw [e] at ha; exact absurd ha (by decide)
    have hdot : '.' ∉ a :: r := not_mem_of_allDigits _ (hs ▸ h2) '.' (by decide)
    simp only [jsNumber, hs, if_neg hminus, if_neg (by simp [hminus, hplus] : ¬(a = '-' ∨ a = '+'))]
    rw [splitCharL_of_not_mem '.' (a :: r) hdot]
    simp [hs ▸ h2, one_mul]

theorem toMinutes_decomp (s : String) (d hh mm rest : List Char)
    (hs : s.data = d ++ 'T' :: (hh ++ ':' :: (mm ++ rest)))
    (hd : 'T' ∉ d) (hh1 : hh ≠ []) (hh2 : allDigits hh = true)
    (hm1 : mm ≠ []) (hm2 : allDigits mm = true)
    (hrest : rest = [] ∨ ∃ r, rest = ':' :: r) :
    toMinutesFromMidnight s = (digitsVal hh : ℚ) * 60 + digitsVal mm := by
  have hhT : 'T' ∉ hh := not_mem_of_allDigits hh hh2 'T' (by decide)
  have hhC : ':' ∉ hh := not_mem_of_allDigits hh hh2 ':' (by decide)
  have hmT : 'T' ∉ mm := not_mem_of_allDigits mm hm2 'T' (by decide)
  have hmC : ':' ∉ mm := not_mem_of_allDigits mm hm2 ':' (by decide)
  have hsne : s.data ≠ [] := by rw [hs]; simp
  have hsplit : splitCharL 'T' s.data = d :: splitCharL 'T' (hh ++ ':' :: (mm ++ rest)) := by
    rw [hs]; exact splitCharL_append 'T' d _ hd
  obtain ⟨L0, Lrest, hL⟩ : ∃ a t, splitCharL 'T' (hh ++ ':' :: (mm ++ rest)) = a :: t := by
    cases h' : splitCharL 'T' (hh ++ ':' :: (mm ++ rest)) with
    | nil => exact absurd h' (splitCharL_ne_nil _ _)
    | cons a t => exact ⟨a, t, rfl⟩
  have h1 : splitChar 'T' s = String.mk d :: String.mk L0 :: Lrest.map String.mk := by
    rw [splitChar, hsplit, hL, List.map_cons, List.map_cons]
  have h2 : ¬(splitChar 'T' s).length < 2 := by rw [h1]; simp
  have h3 : (splitChar 'T' s).getD 1 "" = String.mk L0 := by rw [h1]; rfl
  have hL0 : L0 = hh ++ ':' :: (mm ++ (splitCharL 'T' rest).headD []) := by
    have := splitCharL_headD_append 'T' hh (':' :: (mm ++ rest)) hhT
    rw [hL] at this
    simp only [List.headD_cons] at this
    rw [this]
    congr 1
    have e1 : (':' :: (mm ++ rest)) = [':'] ++ (mm ++ rest) := rfl
    rw [e1, splitCharL_headD_append 'T' [':'] _ (by decide), List.singleton_append]
    congr 1
    exact splitCharL_headD_append 'T' mm rest hmT
  obtain ⟨tl2, h4⟩ : ∃ tl2, splitCharL ':' L0 = hh :: mm :: tl2 := by
    rcases hrest with h' | ⟨r, h'⟩
    · refine ⟨[], ?_⟩
      rw [hL0, h']
      have : (splitCharL 'T' ([] : List Char)).headD [] = [] := rfl
      rw [this, List.append_nil, splitCharL_append ':' hh _ hhC,
        splitCharL_of_not_mem ':' mm hmC]
    · have hr : (splitCharL 'T' rest).headD [] = ':' :: (splitCharL 'T' r).headD [] := by
        rw [h']
        have e1 : ((':' : Char) :: r) = [':'] ++ r := rfl
        rw [e1, splitCharL_headD_append 'T' [':'] r (by decide), List.singleton_append]
      refine ⟨splitCharL ':' ((splitCharL 'T' r).headD []), ?_⟩
      rw [hL0, hr, splitCharL_append ':' hh _ hhC, splitCharL_append ':' mm _ hmC]
  have h5 : splitChar ':' (String.mk L0) = String.mk hh :: String.mk mm :: tl2.map String.mk := by
    rw [splitChar]
    show (splitCharL ':' L0).map String.mk = _
    rw [h4, List.map_cons, List.map_cons]
  have hjh : jsNumber (String.mk hh) = some (digitsVal hh) := jsNumber_digits _ hh1 hh2
  have hjm : jsNumber (String.mk mm) = some (digitsVal mm) := jsNumber_digits _ hm1 hm2
  simp only [toMinutesFromMidnight, if_neg hsne, if_neg h2, h3, h5, List.headD_cons,
    List.getElem?_cons_succ, List.getElem?_cons_zero, hjh, hjm]
  rfl

theorem toMinutes_no_T (s : String) (h : 'T' ∉ s.data) : toMinutesFromMidnight s = 0 := by
  cases hs : s.data with
  | nil => simp [toMinutesFromMidnight, hs]
  | cons a r =>
    have h2 : (splitChar 'T' s).length < 2 := by
      rw [splitChar, splitCharL_of_not_mem 'T' s.data (by rw [hs] at h ⊢; exact h)]
      simp
    simp [toMinutesFromMidnight, hs, splitChar] at h2 ⊢
    intro hfalse
    simp [splitCharL_of_not_mem 'T' (a :: r) (hs ▸ h)] at hfalse

theorem toMinutes_hour_only (s : String) (d hh : List Char)
    (hs : s.data = d ++ 'T' :: hh) (hd : 'T' ∉ d) (hh1 : hh ≠ [])
    (hh2 : allDigits hh = true) :
    toMinutesFromMidnight s = (digitsVal hh : ℚ) * 60 := by
  have hhC : ':' ∉ hh := not_mem_of_allDigits hh hh2 ':' (by decide)
  have hhT : 'T' ∉ hh := not_mem_of_allDigits hh hh2 'T' (by decide)
  have hsne : s.data ≠ [] := by rw [hs]; simp
  have hsplit : splitCharL 'T' s.data = d :: [hh] := by
    rw [hs, splitCharL_append 'T' d hh hd, splitCharL_of_not_mem 'T' hh hhT]
  have h1 : splitChar 'T' s = String.mk d :: [String.mk hh] := by
    rw [splitChar, hsplit]; rfl
  have h2 : ¬(splitChar 'T' s).length < 2 := by rw [h1]; simp
  have h3 : (splitChar 'T' s).getD 1 "" = String.mk hh := by rw [h1]; rfl
  have h5 : splitChar ':' (String.mk hh) = [String.mk hh] := by
    rw [splitChar]
    show (splitCharL ':' hh).map String.mk = _
    rw [splitCharL_of_not_mem ':' hh hhC]; rfl
  have hjh : jsNumber (String.mk hh) = some (digitsVal hh) := jsNumber_digits _ hh1 hh2
  simp only [toMinutesFromMidnight, if_neg hsne, if_neg h2, h3, h5, List.headD_cons,
    List.getElem?_cons_succ, List.getElem?_nil, hjh]
  show (digitsVal hh : ℚ) * 60 + 0 = (digitsVal hh : ℚ) * 60
  ring

/-- When the hour segment of the time part, or its minute segment, fails
`Number` conversion, the parser falls into the `NaN` branch and returns 0. -/
theorem toMinutes_nan_segment (s : String) (d tp : List Char)
    (hs : s.data = d ++ 'T' :: tp) (hd : 'T' ∉ d) (htp : 'T' ∉ tp)
    (hfail : jsNumber (String.mk ((splitCharL ':' tp).headD [])) = none ∨
      ∃ m, (splitCharL ':' tp)[1]? = some m ∧ jsNumber (String.mk m) = none) :
    toMinutesFromMidnight s = 0 := by
  have hsne : s.data ≠ [] := by rw [hs]; simp
  have hsplit : splitCharL 'T' s.data = d :: [tp] := by
    rw [hs, splitCharL_append 'T' d tp hd, splitCharL_of_not_mem 'T' tp htp]
  have h1 : splitChar 'T' s = String.mk d :: [String.mk tp] := by
    rw [splitChar, hsplit]; rfl
  have h2 : ¬(splitChar 'T' s).length < 2 := by rw [h1]; simp
  have h3 : (splitChar 'T' s).getD 1 "" = String.mk tp := by rw [h1]; rfl
  cases hsp : splitCharL ':' tp with
  | nil => exact absurd hsp (splitCharL_ne_nil ':' tp)
  | cons a r =>
    have h5 : splitChar ':' (String.mk tp) = String.mk a :: r.map String.mk := by
      rw [splitChar]
      show (splitCharL ':' tp).map String.mk = _
      rw [hsp]; rfl
    rw [hsp] at hfail
    rcases hfail with hfa | ⟨m, hm1, hm2⟩
    · have hfa' : jsNumber (String.mk a) = none := by
        rw [List.headD_cons] at hfa
        exact hfa
      simp only [toMinutesFromMidnight, if_neg hsne, if_neg h2, h3, h5, List.headD_cons, hfa']
    · have hr0 : r[0]? = some m := by
        rw [List.getElem?_cons_succ] at hm1
        exact hm1
      have hm1' : (r.map String.mk)[0]? = some (String.mk m) := by
        rw [List.getElem?_map, hr0]
        rfl
      simp only [toMinutesFromMidnight, if_neg hsne, if_neg h2, h3, h5, List.headD_cons,
        List.getElem?_cons_succ, hm1', hm2]
      cases jsNumber (String.mk a) <;> rfl

/-- C9 (counterexample).  `"aT5"` is neither empty nor of the form
`DATE"T"HH:mm[:ss]`, yet the parser returns `300`, not the claimed `0`:
a lone numeric hour segment after the `T` is accepted as `HH * 60`. -/
theorem C9_counterexample_aT5 :
    toMinutesFromMidnight "aT5" = 300 ∧ (300 : ℚ) ≠ 0 := by
  constructor
  · have h := toMinutes_hour_only "aT5" "a".data "5".data (by decide) (by decide)
      (by decide) (by decide)
    have e : digitsVal "5".data = 5 := by decide
    rw [h, e]; norm_num
  · norm_num

/-- C9 (amended).  The parser never raises and returns `0` for the empty
string, for any string without a `"T"`, and whenever the hour segment of
the time part or its minute segment fails `Number` conversion; but it is
lenient rather than strict: after the first `"T"`, a numeric hour segment
followed by a numeric minute segment — with anything `":"`-separated after
them ignored — yields `HH * 60 + mm` (so well-formed `DATE"T"HH:mm[:ss]`
parses correctly, seconds ignored), and a lone numeric hour segment yields
`HH * 60` rather than `0`. -/
theorem C9_amended_lenient_parse :
    toMinutesFromMidnight "" = 0 ∧
    (∀ s : String, 'T' ∉ s.data → toMinutesFromMidnight s = 0) ∧
    (∀ (s : String) (d tp : List Char),
      s.data = d ++ 'T' :: tp → 'T' ∉ d → 'T' ∉ tp →
      (jsNumber (String.mk ((splitCharL ':' tp).headD [])) = none ∨
        ∃ m, (splitCharL ':' tp)[1]? = some m ∧ jsNumber (String.mk m) = none) →
      toMinutesFromMidnight s = 0) ∧
    (∀ (s : String) (d hh mm rest : List Char),
      s.data = d ++ 'T' :: (hh ++ ':' :: (mm ++ rest)) → 'T' ∉ d →
      hh ≠ [] → allDigits hh = true → mm ≠ [] → allDigits mm = true →
      (rest = [] ∨ ∃ r, rest = ':' :: r) →
      toMinutesFromMidnight s = (digitsVal hh : ℚ) * 60 + digitsVal mm) ∧
    (∀ (s : String) (d hh : List Char),
      s.data = d ++ 'T' :: hh → 'T' ∉ d → hh ≠ [] → allDigits hh = true →
      toMinutesFromMidnight s = (digitsVal hh : ℚ) * 60) := by
  refine ⟨by decide, toMinutes_no_T, toMinutes_nan_segment, ?_, toMinutes_hour_only⟩
  intro s d hh mm rest hs hd h1 h2 h3 h4 h5
  exact toMinutes_decomp s d hh mm rest hs hd h1 h2 h3 h4 h5

/-- C9 (witness): the amended characterization applied to a string with no
`"T"`, a non-numeric hour segment, a non-numeric minute segment, a
well-formed datetime with seconds, and the lenient hour-only input. -/
theorem C9_amended_lenient_parse_witness :
    toMinutesFromMidnight "nodate" = 0 ∧
    toMinutesFromMidnight "2025-11-06Txx:30" = 0 ∧
    toMinutesFromMidnight "2025-11-06T09:x0" = 0 ∧
    toMinutesFromMidnight "2025-11-06T09:30:00" = 570 ∧
    toMinutesFromMidnight "aT5" = 300 := by
  obtain ⟨-, h2, hnan, h3, h4⟩ := C9_amended_lenient_parse
  refine ⟨h2 "nodate" (by decide), ?_, ?_, ?_, ?_⟩
  · exact hnan "2025-11-06Txx:30" "2025-11-06".data "xx:30".data (by decide) (by decide)
      (by decide) (Or.inl (by decide))
  · exact hnan "2025-11-06T09:x0" "2025-11-06".data "09:x0".data (by decide) (by decide)
      (by decide) (Or.inr ⟨"x0".data, by decide, by decide⟩)
  · have := h3 "2025-11-06T09:30:00" "2025-11-06".data "09".data "30".data ":00".data
      (by decide) (by decide) (by decide) (by decide) (by decide) (by decide)
      (Or.inr ⟨"00".data, by decide⟩)
    have e1 : digitsVal "09".data = 9 := by decide
    have e2 : digitsVal "30".data = 30 := by decide
    rw [this, e1, e2]; norm_num
  · have := h4 "aT5" "a".data "5".data (by decide) (by decide) (by decide) (by decide)
    have e : digitsVal "5".data = 5 := by decide
    rw [this, e]; norm_num

theorem hasConflict_iff (data : List CompactCalendarSlot) (excl : IdVal) (loc : String)
    (f t : ℚ) :
    hasConflict data excl loc (JNum.fin f) (JNum.fin t) = true ↔
      ∃ s ∈ data, s.location = loc ∧ s.id ≠ excl ∧
        toMinutesFromMidnight s.dateTimeFrom < t ∧ f < toMinutesFromMidnight s.dateTimeTo := by
  simp only [hasConflict, List.any_eq_true, List.mem_filter, Bool.and_eq_true, beq_iff_eq,
    bne_iff_ne, ne_eq, JNum.jle, JNum.jge, Bool.or_eq_true, Bool.not_eq_true',
    Bool.or_eq_false_iff, decide_eq_false_iff_not, not_le]
  constructor
  · rintro ⟨s, ⟨hm, hloc, hid⟩, ho1, ho2⟩
    exact ⟨s, hm, hloc, hid, ho1, ho2⟩
  · rintro ⟨s, hm, hloc, hid, ho1, ho2⟩
    exact ⟨s, ⟨hm, hloc, hid⟩, ho1, ho2⟩

theorem parse_T0100 : toMinutesFromMidnight "2025-11-06T01:00:00" = 60 := by
  have h := toMinutes_decomp "2025-11-06T01:00:00" "2025-11-06".data "01".data "00".data
    ":00".data (by decide) (by decide) (by decide) (by decide) (by decide) (by decide)
    (Or.inr ⟨"00".data, by decide⟩)
  have e1 : digitsVal "01".data = 1 := by decide
  have e2 : digitsVal "00".data = 0 := by decide
  rw [h, e1, e2]; norm_num

theorem digitsVal_foldl_init (l : List Char) (a : ℕ) :
    l.foldl (fun a c => a * 10 + (c.toNat - 48)) a = a * 10 ^ l.length + digitsVal l := by
  induction l generalizing a with
  | nil => simp [digitsVal]
  | cons c l ih =>
    simp only [List.foldl_cons, List.length_cons, digitsVal]
    rw [ih, ih (0 * 10 + (c.toNat - 48))]
    ring

theorem digitsVal_append_digit (l : List Char) (c : Char) :
    digitsVal (l ++ [c]) = digitsVal l * 10 + (c.toNat - 48) := by
  unfold digitsVal
  rw [List.foldl_append, digitsVal_foldl_init]
  simp [digitsVal]

theorem digitChar_spec (r : ℕ) (h : r < 10) :
    (Char.ofNat (48 + r)).isDigit = true ∧ (Char.ofNat (48 + r)).toNat = 48 + r := by
  interval_cases r <;> exact ⟨by decide, by decide⟩

theorem natDigitsAux_spec (fuel : ℕ) : ∀ n, n < fuel →
    allDigits (natDigitsAux fuel n) = true ∧ natDigitsAux fuel n ≠ [] ∧
      digitsVal (natDigitsAux fuel n) = n := by
  induction fuel with
  | zero => intro n h; omega
  | succ fuel ih =>
    intro n h
    by_cases h10 : n < 10
    · obtain ⟨hd, ht⟩ := digitChar_spec n h10
      refine ⟨?_, by simp [natDigitsAux, h10], ?_⟩
      · simp [natDigitsAux, h10, allDigits, hd]
      · simp [natDigitsAux, h10, digitsVal, ht]
    · have hrec : n / 10 < fuel := by
        have := Nat.div_lt_self (by omega : 0 < n) (by omega : 1 < 10)
        omega
      obtain ⟨ih1, ih2, ih3⟩ := ih (n / 10) hrec
      have hr : n % 10 < 10 := Nat.mod_lt _ (by omega)
      obtain ⟨hd, ht⟩ := digitChar_spec (n % 10) hr
      refine ⟨?_, by simp [natDigitsAux, h10], ?_⟩
      · simp only [natDigitsAux, if_neg h10, allDigits, List.all_append]
        rw [allDigits] at ih1
        simp [ih1, hd]
      · simp only [natDigitsAux, if_neg h10]
        rw [digitsVal_append_digit, ih3, ht]
        omega

theorem natDigits_spec (n : ℕ) :
    allDigits (natDigits n) = true ∧ natDigits n ≠ [] ∧ digitsVal (natDigits n) = n :=
  natDigitsAux_spec (n + 1) n (Nat.lt_succ_self n)

theorem intToString_nonneg (i : ℤ) (h : 0 ≤ i) :
    (intToString i).data = natDigits i.natAbs := by
  unfold intToString
  rw [if_neg (not_lt.mpr h)]

theorem digitsVal_replicate_zero (k : ℕ) (l : List Char) :
    digitsVal (List.replicate k '0' ++ l) = digitsVal l := by
  induction k with
  | zero => simp
  | succ k ih =>
    rw [List.replicate_succ, List.cons_append]
    unfold digitsVal
    simp only [List.foldl_cons]
    have : (0 : ℕ) * 10 + ('0'.toNat - 48) = 0 := by decide
    rw [this]
    exact ih

theorem padTwo_spec (s : String) (h1 : s.data ≠ []) (h2 : allDigits s.data = true) :
    (padTwo s).data ≠ [] ∧ allDigits (padTwo s).data = true ∧
      digitsVal (padTwo s).data = digitsVal s.data := by
  unfold padTwo
  split
  · exact ⟨h1, h2, rfl⟩
  · rw [String.data_append]
    show (List.replicate _ '0' ++ s.data ≠ []) ∧ _
    refine ⟨by simp [h1], ?_, digitsVal_replicate_zero _ _⟩
    simp only [allDigits, List.all_append]
    rw [allDigits] at h2
    rw [h2, Bool.and_true, List.all_eq_true]
    intro c hc
    rw [List.eq_of_mem_replicate hc]
    decide

theorem jsMod_intCast60 (j : ℤ) (h0 : 0 ≤ j) : jsMod (j : ℚ) 60 = ((j % 60 : ℤ) : ℚ) := by
  unfold jsMod jsTrunc
  have hpos : (0 : ℚ) ≤ (j : ℚ) / 60 := by positivity
  rw [if_pos hpos]
  have hf : ⌊(j : ℚ) / 60⌋ = j / 60 := by
    simpa using Rat.floor_intCast_div_natCast j 60
  rw [hf, Int.emod_def]
  push_cast
  ring

theorem isoTimeString_intCast (j : ℤ) (h0 : 0 ≤ j) :
    isoTimeString (JNum.fin (j : ℚ)) =
      padTwo (intToString (j / 60)) ++ ":" ++ padTwo (intToString (j % 60)) ++ ":00" := by
  simp only [isoTimeString]
  have hf : ⌊(j : ℚ) / 60⌋ = j / 60 := by
    simpa using Rat.floor_intCast_div_natCast j 60
  rw [hf, jsMod_intCast60 j h0]
  simp only [jnumToString]
  rw [Rat.den_intCast, Rat.num_intCast]
  simp

theorem minutesToIso_intCast (base : String) (hb : base.data ≠ []) (j : ℤ) (h0 : 0 ≤ j) :
    minutesToIso base (JNum.fin (j : ℚ)) =
      String.mk ((splitCharL 'T' base.data).headD []) ++ "T" ++
        (padTwo (intToString (j / 60)) ++ ":" ++ padTwo (intToString (j % 60)) ++ ":00") := by
  unfold minutesToIso
  rw [if_neg hb, isoTimeString_intCast j h0]

theorem parse_minutesToIso (base : String) (hb : base.data ≠ []) (j : ℤ) (h0 : 0 ≤ j) :
    toMinutesFromMidnight (minutesToIso base (JNum.fin (j : ℚ))) = (j : ℚ) := by
  rw [minutesToIso_intCast base hb j h0]
  have hdiv : 0 ≤ j / 60 := Int.ediv_nonneg h0 (by omega)
  have hmod : 0 ≤ j % 60 := Int.emod_nonneg j (by omega)
  obtain ⟨hh_dig, hh_ne, hh_val⟩ := natDigits_spec (j / 60).natAbs
  obtain ⟨hm_dig, hm_ne, hm_val⟩ := natDigits_spec (j % 60).natAbs
  have ehh : (intToString (j / 60)).data = natDigits (j / 60).natAbs :=
    intToString_nonneg _ hdiv
  have ehm : (intToString (j % 60)).data = natDigits (j % 60).natAbs :=
    intToString_nonneg _ hmod
  obtain ⟨phh_ne, phh_dig, phh_val⟩ := padTwo_spec (intToString (j / 60))
    (by rw [ehh]; exact hh_ne) (by rw [ehh]; exact hh_dig)
  obtain ⟨phm_ne, phm_dig, phm_val⟩ := padTwo_spec (intToString (j % 60))
    (by rw [ehm]; exact hm_ne) (by rw [ehm]; exact hm_dig)
  have hdecomp := toMinutes_decomp
    (String.mk ((splitCharL 'T' base.data).headD []) ++ "T" ++
      (padTwo (intToString (j / 60)) ++ ":" ++ padTwo (intToString (j % 60)) ++ ":00"))
    ((splitCharL 'T' base.data).headD []) (padTwo (intToString (j / 60))).data
    (padTwo (intToString (j % 60))).data ":00".data
    (by simp [String.data_append]) (splitCharL_headD_not_mem 'T' base.data)
    phh_ne phh_dig phm_ne phm_dig (Or.inr ⟨"00".data, rfl⟩)
  rw [hdecomp, phh_val, phm_val, ehh, ehm, hh_val, hm_val]
  have c1 : ((j / 60).natAbs : ℤ) = j / 60 := Int.natAbs_of_nonneg hdiv
  have c2 : ((j % 60).natAbs : ℤ) = j % 60 := Int.natAbs_of_nonneg hmod
  have hn : (((j / 60).natAbs * 60 + (j % 60).natAbs : ℕ) : ℤ) = j := by omega
  have hq : (((j / 60).natAbs * 60 + (j % 60).natAbs : ℕ) : ℚ) = (j : ℚ) := by
    rw [← Int.cast_natCast, hn]
  push_cast at hq
  exact hq

theorem parse_T0200 : toMinutesFromMidnight "2025-11-06T02:00:00" = 120 := by
  have h := toMinutes_decomp "2025-11-06T02:00:00" "2025-11-06".data "02".data "00".data
    ":00".data (by decide) (by decide) (by decide) (by decide) (by decide) (by decide)
    (Or.inr ⟨"00".data, by decide⟩)
  have e1 : digitsVal "02".data = 2 := by decide
  have e2 : digitsVal "00".data = 0 := by decide
  rw [h, e1, e2]; norm_num

/-- C2.  `hasConflict` holds exactly when some other slot of the candidate
location (the excluded id never counted) overlaps the candidate under the
half-open rule `not (toA <= fromB or fromA >= toB)`; touching intervals
`[0,60)` and `[60,120)` do not conflict while `[0,61)` and `[60,120)` do. -/
theorem C2_hasConflict_halfopen :
    (∀ (data : List CompactCalendarSlot) (excl : IdVal) (loc : String) (f t : ℚ),
      hasConflict data excl loc (JNum.fin f) (JNum.fin t) = true ↔
        ∃ s ∈ data, s.location = loc ∧ s.id ≠ excl ∧
          toMinutesFromMidnight s.dateTimeFrom < t ∧ f < toMinutesFromMidnight s.dateTimeTo) ∧
    hasConflict [slotB] IdVal.nullV "L" (JNum.fin 0) (JNum.fin 60) = false ∧
    hasConflict [slotB] IdVal.nullV "L" (JNum.fin 0) (JNum.fin 61) = true ∧
    (∀ f t : ℚ, hasConflict [slotB] slotB.id "L" (JNum.fin f) (JNum.fin t) = false) := by
  refine ⟨hasConflict_iff, ?_, ?_, ?_⟩
  · rw [Bool.eq_false_iff]
    intro hc
    obtain ⟨s, hs, hloc, hid, h1, h2⟩ := (hasConflict_iff _ _ _ _ _).mp hc
    rw [List.mem_singleton] at hs
    subst hs
    have e : toMinutesFromMidnight slotB.dateTimeFrom = 60 := parse_T0100
    rw [e] at h1
    exact absurd h1 (by norm_num)
  · refine (hasConflict_iff _ _ _ _ _).mpr ⟨slotB, List.mem_singleton_self _, rfl, by decide, ?_, ?_⟩
    · show toMinutesFromMidnight "2025-11-06T01:00:00" < 61
      rw [parse_T0100]; norm_num
    · show (0 : ℚ) < toMinutesFromMidnight "2025-11-06T02:00:00"
      rw [parse_T0200]; norm_num
  · intro f t
    rw [Bool.eq_false_iff]
    intro hc
    obtain ⟨s, hs, hloc, hid, -, -⟩ := (hasConflict_iff _ _ _ _ _).mp hc
    rw [List.mem_singleton] at hs
    subst hs
    exact hid rfl

/-- C10.  With an empty committed list, `rebuild` clears every derived
collection and hides the now indicator (it returns before the clock is even
consulted, for every environment and even with the indicator enabled), so no
location — with or without configured working hours — gets a row or
non-working overlays. -/
theorem C10_rebuild_empty (st : EngineState) (env : Env) (h : st.data = []) :
    (rebuild st env).locations = [] ∧ (rebuild st env).slotsByLocation = [] ∧
    (rebuild st env).nonWorkingByLocation = [] ∧ (rebuild st env).nowPercent = -1 ∧
    ∀ loc : String, loc ∉ (rebuild st env).locations ∧
      (rebuild st env).slotsByLocation.lookup loc = none ∧
      (rebuild st env).nonWorkingByLocation.lookup loc = none := by
  simp [rebuild, h]

/-- C10 (witness): a state with working hours configured for `"R"`, the
indicator on and the clock on the displayed day, but no slots. -/
theorem C10_rebuild_empty_witness :
    (rebuild (initState [] [("R", [{ start := "06:00", endS := "24:00" }])] "x" true)
        { envModel with isSameDayAsNow := fun _ => true }).nowPercent = -1 ∧
    "R" ∉ (rebuild (initState [] [("R", [{ start := "06:00", endS := "24:00" }])] "x" true)
        { envModel with isSameDayAsNow := fun _ => true }).locations := by
  have := C10_rebuild_empty
    (initState [] [("R", [{ start := "06:00", endS := "24:00" }])] "x" true)
    { envModel with isSameDayAsNow := fun _ => true } rfl
  exact ⟨this.2.2.2.1, (this.2.2.2.2 "R").1⟩

/-- C5.  The drag pointer-move divides the pixel delta by the captured track
width with no guard: over a zero-width track the delta becomes `+Infinity`
(not `0`), and the candidate interval jumps from the gesture's starting
`[60, 120]` to the end-of-day `[1380, 1440]` instead of staying put.  The
code does not crash, but it does not degrade to zero movement as specified. -/
theorem C5_zero_width_track_unguarded :
    JNum.jmul (JNum.jdiv (96 - zeroWidthCtx.startX) zeroWidthCtx.trackWidth) 1440 = JNum.pinf ∧
    (engineStep zeroWidthState (Input.pointerMove 96 none { left := 0, width := 0 })
        envModel).1.dragCtx =
      some { zeroWidthCtx with currentFromMins := JNum.fin 1380, currentToMins := JNum.fin 1440 } ∧
    JNum.fin 1380 ≠ zeroWidthCtx.currentFromMins := by
  refine ⟨?_, ?_, ?_⟩
  · norm_num [JNum.jdiv, JNum.jmul, zeroWidthCtx]
  · have hsnap : snapToStep 1380 30 = 1380 := by norm_num [snapToStep, jsRound]
    norm_num [engineStep, onWindowPointerMove, zeroWidthState, zeroWidthCtx, initState,
      dragCandidate, JNum.jdiv, JNum.jmul, JNum.jadd, JNum.jclamp, JNum.jsnap, clamp,
      updateSlotViewModel, updateSlotViewModel.removeVMAux, hsnap]
  · simp only [zeroWidthCtx, ne_eq, JNum.fin.injEq]
    norm_num

/-- C6 (counterexample).  A backward create-drag whose pointer-down mapped to
minute 30 and whose pointer-up maps to minute 10 does not normalize to
`[10,30]` and is not silently abandoned: each endpoint is snapped to the
30-minute grid before normalization (`10` snaps to `0`), so the candidate is
`[0,30]`, already 30 minutes long, and a fresh slot is appended and emitted. -/
theorem C6_counterexample_backward_create :
    (engineStep backwardCreateState (Input.pointerUp 10 none { left := 0, width := 1440 })
        envModel).2 =
      [{ id := IdVal.numV 99, tn := "NEW", carrier := some "", location := "R2",
         dateTimeFrom := "2025-11-06T00:00:00", dateTimeTo := "2025-11-06T00:30:00",
         color := none }] ∧
    toMinutesFromMidnight "2025-11-06T00:00:00" = 0 ∧
    toMinutesFromMidnight "2025-11-06T00:30:00" = 30 := by
  have hb : ("2025-11-06T00:00:00" : String).data ≠ [] := by decide
  have e0 : String.mk ((splitCharL 'T' ("2025-11-06T00:00:00" : String).data).headD []) ++ "T" ++
      (padTwo (intToString ((0 : ℤ) / 60)) ++ ":" ++ padTwo (intToString ((0 : ℤ) % 60)) ++ ":00") =
      "2025-11-06T00:00:00" := by decide
  have e30 : String.mk ((splitCharL 'T' ("2025-11-06T00:00:00" : String).data).headD []) ++ "T" ++
      (padTwo (intToString ((30 : ℤ) / 60)) ++ ":" ++ padTwo (intToString ((30 : ℤ) % 60)) ++ ":00") =
      "2025-11-06T00:30:00" := by decide
  have hIso0 : minutesToIso "2025-11-06T00:00:00" (JNum.fin 0) = "2025-11-06T00:00:00" := by
    have h := (minutesToIso_intCast "2025-11-06T00:00:00" hb 0 (by norm_num)).trans e0
    simpa using h
  have hIso30 : minutesToIso "2025-11-06T00:00:00" (JNum.fin 30) = "2025-11-06T00:30:00" := by
    have h := (minutesToIso_intCast "2025-11-06T00:00:00" hb 30 (by norm_num)).trans e30
    simpa using h
  have p0 : toMinutesFromMidnight "2025-11-06T00:00:00" = 0 := by
    have h := parse_minutesToIso "2025-11-06T00:00:00" hb 0 (by norm_num)
    simp only [Int.cast_zero] at h
    rw [hIso0] at h
    exact h
  have p30 : toMinutesFromMidnight "2025-11-06T00:30:00" = 30 := by
    have h := parse_minutesToIso "2025-11-06T00:00:00" hb 30 (by norm_num)
    norm_num at h
    rw [hIso30] at h
    exact h
  refine ⟨?_, p0, p30⟩
  have hsnap10 : snapToStep 10 30 = 0 := by norm_num [snapToStep, jsRound]
  norm_num [engineStep, onWindowPointerUp, backwardCreateState, backwardCreateCtx, initState,
    clamp, JNum.jdiv, JNum.jmul, JNum.jsnap, JNum.jmin, JNum.jmax, JNum.jsub, JNum.jlt,
    JNum.jgt, getWorkingBounds, hasConflict, outOfWorkingB, hsnap10, envModel, hIso0, hIso30]

/-- C6 (amended).  On pointer-up of a create gesture the candidate is
`[min(origin, current), max(origin, current)]` where origin and current are
each snapped to the 30-minute grid *before* normalization (so a backward
drag from minute 30 to pointer minute 10 yields `[0,30]` and is committed
when valid, not `[10,30]`); whenever the snapped span is below 30 minutes
the handler abandons silently — the only state change is clearing the create
context: no slot is appended, no rebuild happens, nothing is emitted, and no
warning exists in this component. -/
theorem C6_amended_snapped_create (st : EngineState) (c : CreateContext) (env : Env)
    (x : ℚ) (locAt : Option String) (rect : Rect)
    (hdrag : st.dragCtx = none) (hc : st.createCtx = some c) :
    (let cur := JNum.jsnap (JNum.jmul (JNum.jdiv (clamp (x - rect.left) 0 rect.width)
      rect.width) 1440) 30
     let fromM := JNum.jmin c.startMins cur
     let toM := JNum.jmax c.startMins cur
     (JNum.jlt (JNum.jsub toM fromM) (JNum.fin 30) = true →
        engineStep st (Input.pointerUp x locAt rect) env = ({ st with createCtx := none }, [])) ∧
     (∀ q : ℚ, cur = JNum.fin q → ∃ k : ℤ, q = 30 * k) ∧
     (∀ qf qt : ℚ, fromM = JNum.fin qf → toM = JNum.fin qt → qf ≤ qt)) := by
  dsimp only
  refine ⟨?_, ?_, ?_⟩
  · intro hlt
    simp only [engineStep, onWindowPointerUp, hdrag, hc, hlt, if_pos]
  · intro q hq
    cases hv : JNum.jmul (JNum.jdiv (clamp (x - rect.left) 0 rect.width) rect.width) 1440 with
    | fin p =>
      rw [hv] at hq
      simp only [JNum.jsnap, JNum.fin.injEq] at hq
      exact ⟨jsRound (p / 30), by rw [← hq]; unfold snapToStep; ring⟩
    | nan => rw [hv] at hq; simp [JNum.jsnap] at hq
    | pinf => rw [hv] at hq; simp [JNum.jsnap] at hq
    | ninf => rw [hv] at hq; simp [JNum.jsnap] at hq
  · intro qf qt hf ht
    cases hs : c.startMins <;>
      cases hcur : JNum.jsnap (JNum.jmul (JNum.jdiv (clamp (x - rect.left) 0 rect.width)
        rect.width) 1440) 30 <;>
      rw [hs, hcur] at hf ht <;>
      simp only [JNum.jmin, JNum.jmax, JNum.fin.injEq] at hf ht
    · subst hf; subst ht; exact min_le_max
    all_goals first
      | exact absurd hf (by simp)
      | exact absurd ht (by simp)

/-- C6 (witness): a create-drag that starts and ends at minute 30 has a
snapped span of 0 and is silently abandoned. -/
theorem C6_amended_snapped_create_witness :
    engineStep backwardCreateState (Input.pointerUp 30 none { left := 0, width := 1440 })
        envModel =
      ({ backwardCreateState with createCtx := none }, []) := by
  obtain ⟨h1, -, -⟩ := C6_amended_snapped_create backwardCreateState backwardCreateCtx envModel
    30 none { left := 0, width := 1440 } rfl rfl
  apply h1
  have hsnap30 : snapToStep 30 30 = 30 := by norm_num [snapToStep, jsRound]
  norm_num [clamp, JNum.jdiv, JNum.jmul, JNum.jsnap, JNum.jmin, JNum.jmax, JNum.jsub,
    JNum.jlt, backwardCreateCtx, hsnap30]

theorem rebuild_data (st : EngineState) (env : Env) : (rebuild st env).data = st.data := by
  unfold rebuild; split <;> rfl

theorem rebuild_dragCtx (st : EngineState) (env : Env) :
    (rebuild st env).dragCtx = st.dragCtx := by
  unfold rebuild; split <;> rfl

theorem rebuild_createCtx (st : EngineState) (env : Env) :
    (rebuild st env).createCtx = st.createCtx := by
  unfold rebuild; split <;> rfl

theorem rebuild_workingHours (st : EngineState) (env : Env) :
    (rebuild st env).workingHours = st.workingHours := by
  unfold rebuild; split <;> rfl

theorem step_preserves_single_ctx (st : EngineState) (i : Input) (env : Env)
    (ih : st.dragCtx = none ∨ st.createCtx = none) :
    (engineStep st i env).1.dragCtx = none ∨ (engineStep st i env).1.createCtx = none := by
  cases i with
  | ngInit =>
    show (rebuild st env).dragCtx = none ∨ (rebuild st env).createCtx = none
    rw [rebuild_dragCtx, rebuild_createCtx]
    exact ih
  | inputsChanged d w lbl =>
    show (rebuild _ env).dragCtx = none ∨ (rebuild _ env).createCtx = none
    rw [rebuild_dragCtx, rebuild_createCtx]
    exact ih
  | slotPointerDown vm loc ty x rect => right; rfl
  | trackPointerDown x button onSlot rect loc =>
    show (onTrackPointerDown st x button onSlot rect loc).dragCtx = none ∨
      (onTrackPointerDown st x button onSlot rect loc).createCtx = none
    unfold onTrackPointerDown
    split
    · exact ih
    · split
      · exact ih
      · left; rfl
  | pointerMove x locAt rect =>
    show (onWindowPointerMove st x locAt rect).dragCtx = none ∨
      (onWindowPointerMove st x locAt rect).createCtx = none
    unfold onWindowPointerMove
    rcases hdc : st.dragCtx with - | ctx
    · simp [hdc]
    · have hcn : st.createCtx = none := by
        rcases ih with h | h
        · rw [hdc] at h; exact absurd h (by simp)
        · exact h
      right
      simp [hdc, hcn]
  | pointerUp x locAt rect =>
    show (onWindowPointerUp st x locAt rect env).1.dragCtx = none ∨
      (onWindowPointerUp st x locAt rect env).1.createCtx = none
    unfold onWindowPointerUp
    rcases hdc : st.dragCtx with - | ctx
    · rcases hcc : st.createCtx with - | c
      · simp [hdc, hcc]
      · left
        simp only [hdc, hcc]
        split
        · rfl
        · split
          · rfl
          · split
            · rfl
            · rw [rebuild_dragCtx]
    · left
      simp only [hdc]
      split
      · rfl
      · rfl
  | nowTick => exact ih
  | invalidFlashEnd => exact ih

/-- C8.  In every reachable engine state at most one gesture context is
non-null; pointer-down on a slot unconditionally nulls the create context
while installing the drag context, and a left-button pointer-down on empty
track nulls the drag context while installing the create context. -/
theorem C8_single_gesture_context :
    (∀ st : EngineState, Reachable st → st.dragCtx = none ∨ st.createCtx = none) ∧
    (∀ (st : EngineState) (vm : SlotViewModel) (loc : String) (ty : DragType) (x : ℚ)
        (rect : Rect),
      (onSlotPointerDownFromChild st vm loc ty x rect).createCtx = none ∧
      (onSlotPointerDownFromChild st vm loc ty x rect).dragCtx ≠ none) ∧
    (∀ (st : EngineState) (x : ℚ) (rect : Rect) (loc : String),
      (onTrackPointerDown st x 0 false rect loc).dragCtx = none ∧
      (onTrackPointerDown st x 0 false rect loc).createCtx ≠ none) := by
  refine ⟨?_, ?_, ?_⟩
  · intro st h
    induction h with
    | init d w lbl sn => left; rfl
    | step h i env ih => exact step_preserves_single_ctx _ i env ih
  · intro st vm loc ty x rect
    exact ⟨rfl, by simp [onSlotPointerDownFromChild]⟩
  · intro st x rect loc
    exact ⟨rfl, by simp [onTrackPointerDown]⟩

/-- C8 (witness): the invariant holds at the state reached by starting a
create gesture from a freshly initialized engine. -/
theorem C8_single_gesture_context_witness :
    (engineStep (initState [] [] "" true)
        (Input.trackPointerDown 5 0 false { left := 0, width := 1440 } "R") envModel).1.dragCtx =
        none ∨
      (engineStep (initState [] [] "" true)
        (Input.trackPointerDown 5 0 false { left := 0, width := 1440 } "R")
          envModel).1.createCtx = none :=
  C8_single_gesture_context.1 _
    (Reachable.step (Reachable.init [] [] "" true)
      (Input.trackPointerDown 5 0 false { left := 0, width := 1440 } "R") envModel)

theorem commit_preserves_id (slotId : IdVal) (newLocation : String) (newFrom newTo : JNum)
    (s : CompactCalendarSlot) :
    (if s.id = slotId then
        { s with
          location := newLocation
          dateTimeFrom := minutesToIso s.dateTimeFrom (JNum.jsnap (JNum.jclamp newFrom 0 1440) 30)
          dateTimeTo := minutesToIso s.dateTimeTo (JNum.jsnap (JNum.jclamp newTo 0 1440) 30) }
      else s).id = s.id := by
  split <;> rfl

theorem commitDragToData_emit_of_mem (data : List CompactCalendarSlot) (slotId : IdVal)
    (newLocation : String) (newFrom newTo : JNum)
    (h : ∃ s ∈ data, s.id = slotId) :
    (commitDragToData data slotId newLocation newFrom newTo).2.length = 1 := by
  obtain ⟨s0, hmem, hid⟩ := h
  unfold commitDragToData
  have hsome : ((data.map fun slot =>
      if slot.id = slotId then
        { slot with
          location := newLocation
          dateTimeFrom := minutesToIso slot.dateTimeFrom (JNum.jsnap (JNum.jclamp newFrom 0 1440) 30)
          dateTimeTo := minutesToIso slot.dateTimeTo
            (JNum.jsnap (JNum.jclamp newTo 0 1440) 30) }
      else slot).find? (fun s => s.id == slotId)).isSome = true := by
    rw [List.find?_isSome]
    refine ⟨_, List.mem_map_of_mem _ hmem, ?_⟩
    rw [commit_preserves_id, hid]
    exact beq_self_eq_true slotId
  obtain ⟨u, hu⟩ := Option.isSome_iff_exists.mp hsome
  simp only [hu, Option.toList_some, List.length_singleton]

theorem commitDragToData_noop (data : List CompactCalendarSlot) (slotId : IdVal)
    (newLocation : String) (newFrom newTo : JNum)
    (h : ∀ s ∈ data, s.id ≠ slotId) :
    commitDragToData data slotId newLocation newFrom newTo = (data, []) := by
  unfold commitDragToData
  dsimp only
  have hmap : (data.map fun slot =>
      if slot.id = slotId then
        { slot with
          location := newLocation
          dateTimeFrom := minutesToIso slot.dateTimeFrom (JNum.jsnap (JNum.jclamp newFrom 0 1440) 30)
          dateTimeTo := minutesToIso slot.dateTimeTo
            (JNum.jsnap (JNum.jclamp newTo 0 1440) 30) }
      else slot) = data := by
    conv_rhs => rw [← List.map_id data]
    apply List.map_congr_left
    intro a ha
    rw [if_neg (h a ha)]
    rfl
  rw [hmap]
  have hfind : data.find? (fun s => s.id == slotId) = none := by
    rw [List.find?_eq_none]
    intro x hx
    simp only [beq_iff_eq]
    exact h x hx
  rw [hfind]
  rfl

/-- C1.  On pointer-up of a drag or resize gesture: if the final candidate
conflicts with another slot or lies outside the target location's working
hours, the committed array is left exactly as it was and nothing is emitted;
if the candidate is valid and the subject slot exists, `slotChange` is
emitted exactly once; and a valid candidate whose subject slot no longer
exists is a no-op (data unchanged, nothing emitted). -/
theorem C1_pointer_up_commit_or_revert (st : EngineState) (ctx : DragContext) (env : Env)
    (x : ℚ) (locAt : Option String) (rect : Rect) (h : st.dragCtx = some ctx) :
    (let targetLoc := locAt.getD ctx.currentLocation
     let invalid :=
       hasConflict st.data ctx.slotId targetLoc ctx.currentFromMins ctx.currentToMins ||
         outOfWorkingB st.workingHours targetLoc ctx.currentFromMins ctx.currentToMins
     let r := engineStep st (Input.pointerUp x locAt rect) env
     (invalid = true → r.1.data = st.data ∧ r.2 = []) ∧
     (invalid = false → (∃ s ∈ st.data, s.id = ctx.slotId) → r.2.length = 1) ∧
     (invalid = false → (∀ s ∈ st.data, s.id ≠ ctx.slotId) →
       r.1.data = st.data ∧ r.2 = [])) := by
  dsimp only
  refine ⟨?_, ?_, ?_⟩
  · intro hinv
    show ((onWindowPointerUp st x locAt rect env).1.data = st.data ∧
      (onWindowPointerUp st x locAt rect env).2 = [])
    unfold onWindowPointerUp
    simp only [h]
    rw [if_pos hinv]
    exact ⟨rebuild_data st env, rfl⟩
  · intro hinv hmem
    show (onWindowPointerUp st x locAt rect env).2.length = 1
    unfold onWindowPointerUp
    simp only [h]
    rw [if_neg (by rw [hinv]; exact Bool.false_ne_true)]
    exact commitDragToData_emit_of_mem st.data ctx.slotId _ _ _ hmem
  · intro hinv hnone
    show ((onWindowPointerUp st x locAt rect env).1.data = st.data ∧
      (onWindowPointerUp st x locAt rect env).2 = [])
    unfold onWindowPointerUp
    simp only [h]
    rw [if_neg (by rw [hinv]; exact Bool.false_ne_true)]
    rw [commitDragToData_noop st.data ctx.slotId _ _ _ hnone]
    exact ⟨rebuild_data _ env, rfl⟩

/-- C1 (witness): dragging over the committed `slotB` (candidate `[90,150]`
against the committed `[60,120)`) reverts: the data is unchanged and nothing
is emitted. -/
theorem C1_pointer_up_commit_or_revert_witness :
    (engineStep conflictState (Input.pointerUp 0 none { left := 0, width := 1440 })
        envModel).1.data = conflictState.data ∧
    (engineStep conflictState (Input.pointerUp 0 none { left := 0, width := 1440 })
        envModel).2 = [] := by
  obtain ⟨h1, -, -⟩ := C1_pointer_up_commit_or_revert conflictState conflictCtx envModel
    0 none { left := 0, width := 1440 } rfl
  apply h1
  have hc : hasConflict conflictState.data conflictCtx.slotId
      (Option.getD none conflictCtx.currentLocation) conflictCtx.currentFromMins
      conflictCtx.currentToMins = true := by
    show hasConflict [slotB] (IdVal.numV 1) "L" (JNum.fin 90) (JNum.fin 150) = true
    refine (hasConflict_iff _ _ _ _ _).mpr
      ⟨slotB, List.mem_singleton_self _, rfl, by decide, ?_, ?_⟩
    · show toMinutesFromMidnight "2025-11-06T01:00:00" < 150
      rw [parse_T0100]; norm_num
    · show (90 : ℚ) < toMinutesFromMidnight "2025-11-06T02:00:00"
      rw [parse_T0200]; norm_num
  rw [hc, Bool.true_or]

theorem slotVMOf_colorOK (s : CompactCalendarSlot) (loc : String) (idx : ℕ) :
    (slotVMOf s loc idx).color = (slotVMOf s loc idx).raw.color.getD
      (palette.getD ((hashCode (idToString (slotVMOf s loc idx).id)).natAbs % palette.length)
        "") := rfl

theorem markVM_mem (fid : IdVal) (l : List SlotViewModel) (vm : SlotViewModel)
    (h : vm ∈ markVM fid l) :
    ∃ v0 ∈ l, vm.color = v0.color ∧ vm.id = v0.id ∧ vm.raw = v0.raw := by
  induction l with
  | nil => exact absurd h (by simp [markVM])
  | cons v r ih =>
    unfold markVM at h
    split at h
    · rcases List.mem_cons.mp h with h1 | h1
      · exact ⟨v, List.mem_cons_self v r, by rw [h1], by rw [h1], by rw [h1]⟩
      · exact ⟨vm, List.mem_cons_of_mem v h1, rfl, rfl, rfl⟩
    · rcases List.mem_cons.mp h with h1 | h1
      · exact ⟨v, List.mem_cons_self v r, by rw [h1], by rw [h1], by rw [h1]⟩
      · obtain ⟨v0, hv0, he⟩ := ih h1
        exact ⟨v0, List.mem_cons_of_mem v hv0, he⟩

theorem updateAssoc_mem (sbl : List (String × List SlotViewModel)) (loc : String)
    (l : List SlotViewModel) (kv : String × List SlotViewModel)
    (h : kv ∈ updateAssoc sbl loc l) : kv ∈ sbl ∨ (kv.1 = loc ∧ kv.2 = l) := by
  induction sbl with
  | nil => exact absurd h (by simp [updateAssoc])
  | cons p r ih =>
    unfold updateAssoc at h
    split at h
    · rcases List.mem_cons.mp h with h1 | h1
      · right
        constructor
        · rw [h1]; assumption
        · rw [h1]
      · exact Or.inl (List.mem_cons_of_mem p h1)
    · rcases List.mem_cons.mp h with h1 | h1
      · exact Or.inl (h1 ▸ List.mem_cons_self p r)
      · rcases ih h1 with h2 | h2
        · exact Or.inl (List.mem_cons_of_mem p h2)
        · exact Or.inr h2

theorem list_lookup_mem (sbl : List (String × List SlotViewModel)) (loc : String)
    (l : List SlotViewModel) (h : sbl.lookup loc = some l) : (loc, l) ∈ sbl := by
  induction sbl with
  | nil => exact absurd h (by simp)
  | cons p r ih =>
    rw [List.lookup] at h
    split at h
    · obtain rfl : loc = p.1 := by
        rename_i heq
        exact beq_iff_eq.mp heq
      obtain rfl : p.2 = l := by injection h
      exact List.mem_cons_self p r
    · exact List.mem_cons_of_mem p (ih h)

theorem applyFlashAux_mem (fid : IdVal) (locs : List String)
    (sbl : List (String × List SlotViewModel)) (kv : String × List SlotViewModel)
    (h : kv ∈ applyFlashAux fid locs sbl) :
    kv ∈ sbl ∨ ∃ lk, sbl.lookup kv.1 = some lk ∧ kv.2 = markVM fid lk := by
  induction locs with
  | nil => exact Or.inl h
  | cons loc0 rest ih =>
    unfold applyFlashAux at h
    split at h
    · exact ih h
    · split at h
      · rcases updateAssoc_mem _ _ _ _ h with h1 | ⟨h1, h2⟩
        · exact Or.inl h1
        · right
          refine ⟨_, ?_, h2⟩
          rw [h1]
          assumption
      · exact ih h

theorem applyInvalidFlash_mem (flash : Option IdVal) (locs : List String)
    (sbl : List (String × List SlotViewModel)) (kv : String × List SlotViewModel)
    (h : kv ∈ applyInvalidFlash flash locs sbl) :
    kv ∈ sbl ∨ ∃ lk, sbl.lookup kv.1 = some lk ∧ kv.2 = markVM (flash.getD IdVal.nullV) lk := by
  cases flash with
  | none => exact Or.inl h
  | some fid => exact applyFlashAux_mem fid locs sbl kv h

/-- C7.  `rebuild` is idempotent and deterministic: applying it twice (same
environment, same inputs) is the same as applying it once — so identical
committed data and working hours yield identical view models — and every
view model a rebuild produces resolves its color as the slot's explicit
color when present, otherwise the palette entry selected by
`abs(hashCode(String(id))) % palette.length` for its (stable) resolved id. -/
theorem C7_rebuild_idempotent_and_colors :
    (∀ (st : EngineState) (env : Env), rebuild (rebuild st env) env = rebuild st env) ∧
    (∀ (st : EngineState) (env : Env) (loc : String) (l : List SlotViewModel)
        (vm : SlotViewModel),
      (loc, l) ∈ (rebuild st env).slotsByLocation → vm ∈ l →
      vm.color = vm.raw.color.getD
        (palette.getD ((hashCode (idToString vm.id)).natAbs % palette.length) "")) := by
  constructor
  · intro st env
    obtain ⟨data, wh, lbl, sn, locs, sbl, nw, np, cds, dc, cc, fl⟩ := st
    cases data with
    | nil => rfl
    | cons first rest =>
      simp only [rebuild]
      congr 1
      by_cases hl : lbl = ""
      · by_cases hx : env.localeDateString first.dateTimeFrom = ""
        · simp [hl, hx]
        · simp [hl, hx]
      · simp [hl]
  · intro st env loc l vm hmem hvm
    cases hd : st.data with
    | nil =>
      have : (rebuild st env).slotsByLocation = [] := by simp [rebuild, hd]
      rw [this] at hmem
      exact absurd hmem (by simp)
    | cons first rest =>
      have hsbl : (rebuild st env).slotsByLocation =
          applyInvalidFlash st.invalidFlashSlotId
            (listDedup (st.data.map (fun d => d.location)))
            ((listDedup (st.data.map (fun d => d.location))).map (fun loc =>
              (loc, ((st.data.filter (fun d => d.location == loc)).enum).map
                (fun p => slotVMOf p.2 loc p.1)))) := by
        simp [rebuild, hd]
      rw [hsbl] at hmem
      have hbase : ∀ (kv : String × List SlotViewModel),
          kv ∈ ((listDedup (st.data.map (fun d => d.location))).map (fun loc =>
            (loc, ((st.data.filter (fun d => d.location == loc)).enum).map
              (fun p => slotVMOf p.2 loc p.1)))) →
          ∀ v ∈ kv.2, v.color = v.raw.color.getD
            (palette.getD ((hashCode (idToString v.id)).natAbs % palette.length) "") := by
        intro kv hkv v hv
        obtain ⟨loc0, -, hkv0⟩ := List.mem_map.mp hkv
        rw [← hkv0] at hv
        simp only at hv
        obtain ⟨p, -, hp⟩ := List.mem_map.mp hv
        rw [← hp]
        exact slotVMOf_colorOK p.2 loc0 p.1
      rcases applyInvalidFlash_mem _ _ _ _ hmem with h1 | ⟨lk, hlk, hmk⟩
      · exact hbase _ h1 vm hvm
      · simp only at hlk hmk
        rw [hmk] at hvm
        obtain ⟨v0, hv0, hc, hi, hr⟩ := markVM_mem _ _ _ hvm
        rw [hc, hi, hr]
        exact hbase _ (list_lookup_mem _ _ _ hlk) v0 hv0

/-- C7 (witness): the color clause applied to the single view model a
concrete rebuild produces, and idempotence at the same state. -/
theorem C7_rebuild_idempotent_and_colors_witness :
    rebuild (rebuild (initState [slotB] [] "x" true) envModel) envModel =
      rebuild (initState [slotB] [] "x" true) envModel ∧
    (slotVMOf slotB "L" 0).color = (slotVMOf slotB "L" 0).raw.color.getD
      (palette.getD ((hashCode (idToString (slotVMOf slotB "L" 0).id)).natAbs % palette.length)
        "") := by
  refine ⟨C7_rebuild_idempotent_and_colors.1 _ _, ?_⟩
  refine C7_rebuild_idempotent_and_colors.2 (initState [slotB] [] "x" true) envModel "L"
    [slotVMOf slotB "L" 0] (slotVMOf slotB "L" 0) ?_ (List.mem_singleton_self _)
  show ("L", [slotVMOf slotB "L" 0]) ∈
    (rebuild (initState [slotB] [] "x" true) envModel).slotsByLocation
  simp [rebuild, initState, listDedup, dedupAux, applyInvalidFlash, List.filter, List.enum,
    List.enumFrom, slotB]

/-! Arithmetic facts about `snapToStep` and `clamp` on the 30-minute grid. -/

theorem jsRound_intCast (k : ℤ) : jsRound (k : ℚ) = k := by
  unfold jsRound
  rw [add_comm, Int.floor_add_int]
  norm_num

theorem snapToStep_30_mult (k : ℤ) : snapToStep (30 * (k : ℚ)) 30 = 30 * k := by
  unfold snapToStep
  rw [mul_div_cancel_left₀ _ (by norm_num : (30 : ℚ) ≠ 0), jsRound_intCast]
  ring

theorem snapToStep_exists_mult (q : ℚ) : ∃ k : ℤ, snapToStep q 30 = 30 * k :=
  ⟨jsRound (q / 30), by unfold snapToStep; ring⟩

theorem snapToStep_mono (a b : ℚ) (h : a ≤ b) : snapToStep a 30 ≤ snapToStep b 30 := by
  unfold snapToStep
  have hd : a / 30 ≤ b / 30 := (div_le_div_iff_of_pos_right (by norm_num)).mpr h
  have hr : jsRound (a / 30) ≤ jsRound (b / 30) :=
    Int.floor_le_floor (by linarith)
  exact mul_le_mul_of_nonneg_right (Int.cast_le.mpr hr) (by norm_num)

theorem clamp_eq_self (v lo hi : ℚ) (h1 : lo ≤ v) (h2 : v ≤ hi) : clamp v lo hi = v := by
  unfold clamp
  rw [min_eq_right h2, max_eq_right h1]

theorem clamp_le_hi (v lo hi : ℚ) (h : lo ≤ hi) : clamp v lo hi ≤ hi := by
  unfold clamp
  exact max_le h (min_le_left hi v)

theorem clamp_ge_lo (v lo hi : ℚ) : lo ≤ clamp v lo hi := le_max_left lo _

theorem snapToStep_nonneg (q : ℚ) (h : 0 ≤ q) : 0 ≤ snapToStep q 30 := by
  have h0 : snapToStep 0 30 = 30 * ((0 : ℤ) : ℚ) := by
    have := snapToStep_30_mult 0
    simpa using this
  have := snapToStep_mono 0 q h
  rw [h0] at this
  simpa using this

/-- The commit of a final candidate `(30*kf, 30*kt)` with both edges already
on the grid and inside the day: the subject slot is rewritten in place and
emitted once, and its new datetimes parse back to exactly the candidate. -/
theorem commit_emit_parse (data : List CompactCalendarSlot) (slotId : IdVal) (tl : String)
    (kf kt : ℤ) (s0 : CompactCalendarSlot)
    (hkf0 : 0 ≤ kf) (hkf1 : 30 * (kf : ℚ) ≤ 1440)
    (hkt0 : 0 ≤ kt) (hkt1 : 30 * (kt : ℚ) ≤ 1440)
    (hfound : data.find? (fun s => s.id == slotId) = some s0)
    (hne1 : s0.dateTimeFrom.data ≠ []) (hne2 : s0.dateTimeTo.data ≠ []) :
    ∃ u, (commitDragToData data slotId tl (JNum.fin (30 * (kf : ℚ)))
        (JNum.fin (30 * (kt : ℚ)))).2 = [u] ∧
      toMinutesFromMidnight u.dateTimeFrom = 30 * (kf : ℚ) ∧
      toMinutesFromMidnight u.dateTimeTo = 30 * (kt : ℚ) ∧
      u.location = tl ∧ u.id = s0.id := by
  have hkf0q : (0 : ℚ) ≤ 30 * (kf : ℚ) := by positivity
  have hkt0q : (0 : ℚ) ≤ 30 * (kt : ℚ) := by positivity
  have hfc : JNum.jsnap (JNum.jclamp (JNum.fin (30 * (kf : ℚ))) 0 1440) 30 =
      JNum.fin (30 * (kf : ℚ)) := by
    show JNum.fin (snapToStep (clamp (30 * (kf : ℚ)) 0 1440) 30) = _
    rw [clamp_eq_self _ _ _ hkf0q hkf1, snapToStep_30_mult]
  have htc : JNum.jsnap (JNum.jclamp (JNum.fin (30 * (kt : ℚ))) 0 1440) 30 =
      JNum.fin (30 * (kt : ℚ)) := by
    show JNum.fin (snapToStep (clamp (30 * (kt : ℚ)) 0 1440) 30) = _
    rw [clamp_eq_self _ _ _ hkt0q hkt1, snapToStep_30_mult]
  unfold commitDragToData
  dsimp only
  rw [hfc, htc]
  set g := fun slot : CompactCalendarSlot =>
    if slot.id = slotId then
      { slot with
        location := tl
        dateTimeFrom := minutesToIso slot.dateTimeFrom (JNum.fin (30 * (kf : ℚ)))
        dateTimeTo := minutesToIso slot.dateTimeTo (JNum.fin (30 * (kt : ℚ))) }
    else slot with hg
  have hpg : ∀ s : CompactCalendarSlot, ((g s).id == slotId) = (s.id == slotId) := by
    intro s
    rw [hg]
    dsimp only
    split <;> rfl
  have hcomp : ((fun s : CompactCalendarSlot => s.id == slotId) ∘ g) =
      (fun s : CompactCalendarSlot => s.id == slotId) := funext hpg
  have hfind : (data.map g).find? (fun s => s.id == slotId) =
      (data.find? (fun s => s.id == slotId)).map g := by
    rw [List.find?_map g data, hcomp]
  rw [hfind, hfound]
  have hps := List.find?_some hfound
  have hid : s0.id = slotId := by simpa using hps
  have hkfq : (0 : ℚ) ≤ (kf : ℚ) := by exact_mod_cast hkf0
  have hktq : (0 : ℚ) ≤ (kt : ℚ) := by exact_mod_cast hkt0
  refine ⟨g s0, rfl, ?_, ?_, ?_, ?_⟩
  · rw [hg]
    dsimp only
    rw [if_pos hid]
    dsimp only
    rw [show (30 * (kf : ℚ)) = ((30 * kf : ℤ) : ℚ) from by push_cast; ring]
    exact parse_minutesToIso s0.dateTimeFrom hne1 (30 * kf) (by omega)
  · rw [hg]
    dsimp only
    rw [if_pos hid]
    dsimp only
    rw [show (30 * (kt : ℚ)) = ((30 * kt : ℤ) : ℚ) from by push_cast; ring]
    exact parse_minutesToIso s0.dateTimeTo hne2 (30 * kt) (by omega)
  · rw [hg]
    dsimp only
    rw [if_pos hid]
  · rw [hg]
    dsimp only
    rw [if_pos hid]

theorem pointerMove_dragCtx (st : EngineState) (ctx : DragContext) (x : ℚ)
    (locAt : Option String) (rect : Rect) (h : st.dragCtx = some ctx) :
    (onWindowPointerMove st x locAt rect).dragCtx = some
      { ctx with
        currentLocation := locAt.getD ctx.currentLocation
        currentFromMins := (dragCandidate ctx.type ctx.startFromMins ctx.startToMins
          (JNum.jmul (JNum.jdiv (x - ctx.startX) ctx.trackWidth) 1440)).1
        currentToMins := (dragCandidate ctx.type ctx.startFromMins ctx.startToMins
          (JNum.jmul (JNum.jdiv (x - ctx.startX) ctx.trackWidth) 1440)).2 } := by
  unfold onWindowPointerMove
  simp only [h]

theorem pointerMove_data (st : EngineState) (x : ℚ) (locAt : Option String) (rect : Rect) :
    (onWindowPointerMove st x locAt rect).data = st.data := by
  unfold onWindowPointerMove
  rcases h : st.dragCtx with - | ctx <;> simp only [h]

theorem pointerMove_workingHours (st : EngineState) (x : ℚ) (locAt : Option String)
    (rect : Rect) :
    (onWindowPointerMove st x locAt rect).workingHours = st.workingHours := by
  unfold onWindowPointerMove
  rcases h : st.dragCtx with - | ctx <;> simp only [h]

theorem pointerUp_commit (st : EngineState) (ctx : DragContext) (env : Env) (x : ℚ)
    (locAt : Option String) (rect : Rect) (h : st.dragCtx = some ctx)
    (hvalid : (hasConflict st.data ctx.slotId (locAt.getD ctx.currentLocation)
        ctx.currentFromMins ctx.currentToMins ||
      outOfWorkingB st.workingHours (locAt.getD ctx.currentLocation)
        ctx.currentFromMins ctx.currentToMins) = false) :
    (engineStep st (Input.pointerUp x locAt rect) env).2 =
      (commitDragToData st.data ctx.slotId (locAt.getD ctx.currentLocation)
        ctx.currentFromMins ctx.currentToMins).2 := by
  show (onWindowPointerUp st x locAt rect env).2 = _
  unfold onWindowPointerUp
  simp only [h]
  rw [if_neg (by rw [hvalid]; exact Bool.false_ne_true)]

theorem dragCandidate_move (f0 t0 D : ℚ) (hD0 : 0 ≤ f0 + D) (hD1 : f0 + D ≤ 1440 - (t0 - f0)) :
    dragCandidate DragType.move f0 t0 (JNum.fin D) =
      (JNum.fin (snapToStep (f0 + D) 30),
        JNum.fin (snapToStep (f0 + D) 30 + (t0 - f0))) := by
  unfold dragCandidate
  simp only [JNum.jadd, JNum.jclamp, JNum.jsnap]
  rw [clamp_eq_self _ _ _ hD0 hD1]

theorem dragCandidate_resizeStart (f0 t0 D : ℚ) :
    dragCandidate DragType.resizeStart f0 t0 (JNum.fin D) =
      (JNum.fin (snapToStep (clamp (f0 + D) 0 (t0 - 30)) 30), JNum.fin t0) := by
  unfold dragCandidate
  simp only [JNum.jadd, JNum.jclamp, JNum.jsnap]

theorem dragCandidate_resizeEnd (f0 t0 D : ℚ) :
    dragCandidate DragType.resizeEnd f0 t0 (JNum.fin D) =
      (JNum.fin f0, JNum.fin (snapToStep (clamp (t0 + D) (f0 + 30) 1440) 30)) := by
  unfold dragCandidate
  simp only [JNum.jadd, JNum.jclamp, JNum.jsnap]

theorem jdiv_jmul_pos (dx w : ℚ) (hw : 0 < w) :
    JNum.jmul (JNum.jdiv dx w) 1440 = JNum.fin (dx / w * 1440) := by
  unfold JNum.jdiv JNum.jmul
  rw [if_neg (by linarith : w ≠ 0)]

/-- A pointer-move followed by a valid pointer-up emits exactly what the
commit of the move's candidate produces. -/
theorem moveUp_emit (st : EngineState) (ctx : DragContext) (env : Env)
    (x1 x2 : ℚ) (locAt1 locAt2 : Option String) (rect1 rect2 : Rect)
    (h : st.dragCtx = some ctx) (hw : 0 < ctx.trackWidth)
    (hvalid : (hasConflict st.data ctx.slotId (locAt2.getD (locAt1.getD ctx.currentLocation))
        (dragCandidate ctx.type ctx.startFromMins ctx.startToMins
          (JNum.fin ((x1 - ctx.startX) / ctx.trackWidth * 1440))).1
        (dragCandidate ctx.type ctx.startFromMins ctx.startToMins
          (JNum.fin ((x1 - ctx.startX) / ctx.trackWidth * 1440))).2 ||
      outOfWorkingB st.workingHours (locAt2.getD (locAt1.getD ctx.currentLocation))
        (dragCandidate ctx.type ctx.startFromMins ctx.startToMins
          (JNum.fin ((x1 - ctx.startX) / ctx.trackWidth * 1440))).1
        (dragCandidate ctx.type ctx.startFromMins ctx.startToMins
          (JNum.fin ((x1 - ctx.startX) / ctx.trackWidth * 1440))).2) = false) :
    (engineStep ((engineStep st (Input.pointerMove x1 locAt1 rect1) env).1)
        (Input.pointerUp x2 locAt2 rect2) env).2 =
      (commitDragToData st.data ctx.slotId (locAt2.getD (locAt1.getD ctx.currentLocation))
        (dragCandidate ctx.type ctx.startFromMins ctx.startToMins
          (JNum.fin ((x1 - ctx.startX) / ctx.trackWidth * 1440))).1
        (dragCandidate ctx.type ctx.startFromMins ctx.startToMins
          (JNum.fin ((x1 - ctx.startX) / ctx.trackWidth * 1440))).2).2 := by
  have hctx1 := pointerMove_dragCtx st ctx x1 locAt1 rect1 h
  rw [jdiv_jmul_pos _ _ hw] at hctx1
  have hdata1 := pointerMove_data st x1 locAt1 rect1
  have hwh1 := pointerMove_workingHours st x1 locAt1 rect1
  have hvalid1 : (hasConflict (onWindowPointerMove st x1 locAt1 rect1).data ctx.slotId
      (locAt2.getD (locAt1.getD ctx.currentLocation))
      (dragCandidate ctx.type ctx.startFromMins ctx.startToMins
        (JNum.fin ((x1 - ctx.startX) / ctx.trackWidth * 1440))).1
      (dragCandidate ctx.type ctx.startFromMins ctx.startToMins
        (JNum.fin ((x1 - ctx.startX) / ctx.trackWidth * 1440))).2 ||
      outOfWorkingB (onWindowPointerMove st x1 locAt1 rect1).workingHours
      (locAt2.getD (locAt1.getD ctx.currentLocation))
      (dragCandidate ctx.type ctx.startFromMins ctx.startToMins
        (JNum.fin ((x1 - ctx.startX) / ctx.trackWidth * 1440))).1
      (dragCandidate ctx.type ctx.startFromMins ctx.startToMins
        (JNum.fin ((x1 - ctx.startX) / ctx.trackWidth * 1440))).2) = false := by
    rw [hdata1, hwh1]
    exact hvalid
  have hemit := pointerUp_commit (onWindowPointerMove st x1 locAt1 rect1) _ env x2 locAt2
    rect2 hctx1 hvalid1
  rw [hdata1] at hemit
  exact hemit

/-- C3 (amended).  A committed move drag by pixel delta corresponding to `D`
minutes onto a valid target satisfies `from_new = snap(from_old + D)` and
`to_new - from_new = to_old - from_old`, provided the slot's span is a
nonnegative multiple of the 30-minute grid (the invariant every displayed
slot satisfies after a rebuild; raw host data off the grid loses this, see
the counterexample) and `D` keeps the unsnapped interval inside `[0, 1440]`. -/
theorem C3_amended_move_preserves_snapped_span (st : EngineState) (ctx : DragContext)
    (env : Env) (x1 x2 : ℚ) (locAt1 locAt2 : Option String) (rect1 rect2 : Rect)
    (s0 : CompactCalendarSlot) (ks : ℤ)
    (h : st.dragCtx = some ctx)
    (hty : ctx.type = DragType.move)
    (hw : 0 < ctx.trackWidth)
    (hspan : ctx.startToMins - ctx.startFromMins = 30 * (ks : ℚ))
    (hks : 0 ≤ ks)
    (hD0 : 0 ≤ ctx.startFromMins + (x1 - ctx.startX) / ctx.trackWidth * 1440)
    (hD1 : ctx.startFromMins + (x1 - ctx.startX) / ctx.trackWidth * 1440 ≤
      1440 - (ctx.startToMins - ctx.startFromMins))
    (hfound : st.data.find? (fun s => s.id == ctx.slotId) = some s0)
    (hne1 : s0.dateTimeFrom.data ≠ []) (hne2 : s0.dateTimeTo.data ≠ [])
    (hconf : hasConflict st.data ctx.slotId (locAt2.getD (locAt1.getD ctx.currentLocation))
      (JNum.fin (snapToStep (ctx.startFromMins + (x1 - ctx.startX) / ctx.trackWidth * 1440) 30))
      (JNum.fin (snapToStep (ctx.startFromMins + (x1 - ctx.startX) / ctx.trackWidth * 1440) 30 +
        (ctx.startToMins - ctx.startFromMins))) = false)
    (hoow : outOfWorkingB st.workingHours (locAt2.getD (locAt1.getD ctx.currentLocation))
      (JNum.fin (snapToStep (ctx.startFromMins + (x1 - ctx.startX) / ctx.trackWidth * 1440) 30))
      (JNum.fin (snapToStep (ctx.startFromMins + (x1 - ctx.startX) / ctx.trackWidth * 1440) 30 +
        (ctx.startToMins - ctx.startFromMins))) = false) :
    ∃ u, (engineStep ((engineStep st (Input.pointerMove x1 locAt1 rect1) env).1)
        (Input.pointerUp x2 locAt2 rect2) env).2 = [u] ∧
      toMinutesFromMidnight u.dateTimeFrom =
        snapToStep (ctx.startFromMins + (x1 - ctx.startX) / ctx.trackWidth * 1440) 30 ∧
      toMinutesFromMidnight u.dateTimeTo - toMinutesFromMidnight u.dateTimeFrom =
        ctx.startToMins - ctx.startFromMins := by
  have hst1 : (engineStep st (Input.pointerMove x1 locAt1 rect1) env).1 =
      onWindowPointerMove st x1 locAt1 rect1 := rfl
  have hctx1 := pointerMove_dragCtx st ctx x1 locAt1 rect1 h
  rw [jdiv_jmul_pos _ _ hw, hty, dragCandidate_move _ _ _ hD0 hD1] at hctx1
  -- abbreviations
  have hdata1 := pointerMove_data st x1 locAt1 rect1
  have hwh1 := pointerMove_workingHours st x1 locAt1 rect1
  -- the snapped from edge is a grid multiple with known bounds
  obtain ⟨kf, hkf⟩ := snapToStep_exists_mult
    (ctx.startFromMins + (x1 - ctx.startX) / ctx.trackWidth * 1440)
  have hf0 : 0 ≤ snapToStep (ctx.startFromMins + (x1 - ctx.startX) / ctx.trackWidth * 1440) 30 :=
    snapToStep_nonneg _ hD0
  have hfspan : snapToStep (ctx.startFromMins + (x1 - ctx.startX) / ctx.trackWidth * 1440) 30 ≤
      1440 - 30 * (ks : ℚ) := by
    have h1 := snapToStep_mono _ _ hD1
    have e : (1440 : ℚ) - 30 * (ks : ℚ) = 30 * ((48 - ks : ℤ) : ℚ) := by push_cast; ring
    have h2 : snapToStep (1440 - (ctx.startToMins - ctx.startFromMins)) 30 =
        1440 - 30 * (ks : ℚ) := by
      rw [hspan, e, snapToStep_30_mult]
    rw [h2] at h1
    exact h1
  have hks0q : (0 : ℚ) ≤ (ks : ℚ) := by exact_mod_cast hks
  have hkf0 : 0 ≤ kf := by
    rw [hkf] at hf0
    have : (0 : ℚ) ≤ (kf : ℚ) := by linarith
    exact_mod_cast this
  have hkf1 : 30 * (kf : ℚ) ≤ 1440 := by
    rw [hkf] at hfspan
    linarith
  have hkt0 : 0 ≤ kf + ks := by omega
  have hkt1 : 30 * ((kf + ks : ℤ) : ℚ) ≤ 1440 := by
    rw [hkf] at hfspan
    push_cast
    linarith
  -- validity of the final candidate, phrased over the post-move state
  have hvalid : (hasConflict (onWindowPointerMove st x1 locAt1 rect1).data ctx.slotId
      (locAt2.getD (locAt1.getD ctx.currentLocation))
      (JNum.fin (snapToStep (ctx.startFromMins + (x1 - ctx.startX) / ctx.trackWidth * 1440) 30))
      (JNum.fin (snapToStep (ctx.startFromMins + (x1 - ctx.startX) / ctx.trackWidth * 1440) 30 +
        (ctx.startToMins - ctx.startFromMins))) ||
      outOfWorkingB (onWindowPointerMove st x1 locAt1 rect1).workingHours
      (locAt2.getD (locAt1.getD ctx.currentLocation))
      (JNum.fin (snapToStep (ctx.startFromMins + (x1 - ctx.startX) / ctx.trackWidth * 1440) 30))
      (JNum.fin (snapToStep (ctx.startFromMins + (x1 - ctx.startX) / ctx.trackWidth * 1440) 30 +
        (ctx.startToMins - ctx.startFromMins)))) = false := by
    rw [hdata1, hwh1, hconf, hoow]
    rfl
  have hemit := pointerUp_commit (onWindowPointerMove st x1 locAt1 rect1) _ env x2 locAt2
    rect2 hctx1 hvalid
  rw [hdata1] at hemit
  -- rewrite the candidate edges as grid multiples
  have hcast : (30 * (kf : ℚ) + (ctx.startToMins - ctx.startFromMins)) =
      30 * ((kf + ks : ℤ) : ℚ) := by
    rw [hspan]
    push_cast
    ring
  obtain ⟨u, hu, hpf, hpt, -, -⟩ := commit_emit_parse st.data ctx.slotId
    (locAt2.getD (locAt1.getD ctx.currentLocation)) kf (kf + ks) s0 hkf0 hkf1 hkt0 hkt1
    hfound hne1 hne2
  refine ⟨u, ?_, ?_, ?_⟩
  · rw [hst1, hemit]
    show (commitDragToData st.data ctx.slotId (locAt2.getD (locAt1.getD ctx.currentLocation))
      (JNum.fin (snapToStep (ctx.startFromMins + (x1 - ctx.startX) / ctx.trackWidth * 1440) 30))
      (JNum.fin (snapToStep (ctx.startFromMins + (x1 - ctx.startX) / ctx.trackWidth * 1440) 30 +
        (ctx.startToMins - ctx.startFromMins)))).2 = [u]
    rw [hkf, hcast]
    exact hu
  · rw [hpf, hkf]
  · rw [hpf, hpt, hspan]
    push_cast
    ring

theorem parse_T0000 : toMinutesFromMidnight "2025-11-06T00:00:00" = 0 := by
  have h := toMinutes_decomp "2025-11-06T00:00:00" "2025-11-06".data "00".data "00".data
    ":00".data (by decide) (by decide) (by decide) (by decide) (by decide) (by decide)
    (Or.inr ⟨"00".data, by decide⟩)
  have e1 : digitsVal "00".data = 0 := by decide
  rw [h, e1]; norm_num

theorem parse_T0020 : toMinutesFromMidnight "2025-11-06T00:20:00" = 20 := by
  have h := toMinutes_decomp "2025-11-06T00:20:00" "2025-11-06".data "00".data "20".data
    ":00".data (by decide) (by decide) (by decide) (by decide) (by decide) (by decide)
    (Or.inr ⟨"00".data, by decide⟩)
  have e1 : digitsVal "00".data = 0 := by decide
  have e2 : digitsVal "20".data = 20 := by decide
  rw [h, e1, e2]; norm_num

theorem parse_T0010 : toMinutesFromMidnight "2025-11-06T00:10:00" = 10 := by
  have h := toMinutes_decomp "2025-11-06T00:10:00" "2025-11-06".data "00".data "10".data
    ":00".data (by decide) (by decide) (by decide) (by decide) (by decide) (by decide)
    (Or.inr ⟨"00".data, by decide⟩)
  have e1 : digitsVal "00".data = 0 := by decide
  have e2 : digitsVal "10".data = 10 := by decide
  rw [h, e1, e2]; norm_num

/-- The commit only ever sees its minute arguments through the
clamp-then-snap normalization, so arguments with equal normalizations
commit identically. -/
theorem commitDragToData_congr (data : List CompactCalendarSlot) (slotId : IdVal)
    (tl : String) (a b a' b' : JNum)
    (ha : JNum.jsnap (JNum.jclamp a 0 1440) 30 = JNum.jsnap (JNum.jclamp a' 0 1440) 30)
    (hb : JNum.jsnap (JNum.jclamp b 0 1440) 30 = JNum.jsnap (JNum.jclamp b' 0 1440) 30) :
    commitDragToData data slotId tl a b = commitDragToData data slotId tl a' b' := by
  unfold commitDragToData
  dsimp only
  rw [ha, hb]

/-- C3 (counterexample): moving the 20-minute slot `[0,20)` by a zero pixel
delta commits `[0,30]`.  The pointer-up commit re-snaps the `to` edge
independently of the `from` edge, so the committed span is 30, not the
original 20: the move does not preserve the span of a slot whose span is
not a multiple of the 30-minute grid, contradicting "for every initial
span". -/
theorem C3_counterexample_unsnapped_span :
    toMinutesFromMidnight shortSlot.dateTimeTo -
      toMinutesFromMidnight shortSlot.dateTimeFrom = 20 ∧
    ∃ u, (engineStep ((engineStep shortMoveState
          (Input.pointerMove 0 none { left := 0, width := 1440 }) envModel).1)
        (Input.pointerUp 0 none { left := 0, width := 1440 }) envModel).2 = [u] ∧
      toMinutesFromMidnight u.dateTimeFrom = 0 ∧
      toMinutesFromMidnight u.dateTimeTo = 30 := by
  constructor
  · show toMinutesFromMidnight "2025-11-06T00:20:00" -
      toMinutesFromMidnight "2025-11-06T00:00:00" = 20
    rw [parse_T0020, parse_T0000]; norm_num
  · have hty : shortMoveCtx.type = DragType.move := rfl
    have hemit := moveUp_emit shortMoveState shortMoveCtx envModel 0 0 none none
      { left := 0, width := 1440 } { left := 0, width := 1440 } rfl
      (by norm_num [shortMoveCtx]) (by decide)
    have hcand := dragCandidate_move shortMoveCtx.startFromMins shortMoveCtx.startToMins
      ((0 - shortMoveCtx.startX) / shortMoveCtx.trackWidth * 1440)
      (by norm_num [shortMoveCtx]) (by norm_num [shortMoveCtx])
    rw [hty, hcand] at hemit
    dsimp only at hemit
    have hargF : snapToStep (shortMoveCtx.startFromMins +
        (0 - shortMoveCtx.startX) / shortMoveCtx.trackWidth * 1440) 30 = 0 := by
      norm_num [shortMoveCtx, snapToStep, jsRound]
    rw [hargF] at hemit
    have hargT : (0 : ℚ) + (shortMoveCtx.startToMins - shortMoveCtx.startFromMins) = 20 := by
      norm_num [shortMoveCtx]
    rw [hargT] at hemit
    have hconv := commitDragToData_congr shortMoveState.data shortMoveCtx.slotId
      ((none : Option String).getD ((none : Option String).getD shortMoveCtx.currentLocation))
      (JNum.fin 0) (JNum.fin 20) (JNum.fin (30 * ((0 : ℤ) : ℚ))) (JNum.fin (30 * ((1 : ℤ) : ℚ)))
      (by show JNum.fin (snapToStep (clamp 0 0 1440) 30) =
            JNum.fin (snapToStep (clamp (30 * ((0 : ℤ) : ℚ)) 0 1440) 30)
          norm_num [clamp, snapToStep, jsRound])
      (by show JNum.fin (snapToStep (clamp 20 0 1440) 30) =
            JNum.fin (snapToStep (clamp (30 * ((1 : ℤ) : ℚ)) 0 1440) 30)
          norm_num [clamp, snapToStep, jsRound])
    rw [hconv] at hemit
    obtain ⟨u, hu, hpf, hpt, -, -⟩ := commit_emit_parse shortMoveState.data
      shortMoveCtx.slotId
      ((none : Option String).getD ((none : Option String).getD shortMoveCtx.currentLocation))
      0 1 shortSlot (by decide) (by norm_num) (by decide) (by norm_num)
      (by decide) (by decide) (by decide)
    refine ⟨u, by rw [hemit]; exact hu, ?_, ?_⟩
    · rw [hpf]; norm_num
    · rw [hpt]; norm_num

/-- C3 (witness): moving the 180-minute slot `[420,600)` right by 60 pixels
of a 1440-pixel track (delta 60 minutes) commits `[480,660]`: the from edge
is `snap(420+60) = 480` and the 180-minute span is preserved. -/
theorem C3_amended_move_preserves_snapped_span_witness :
    ∃ u, (engineStep ((engineStep c3MoveState
          (Input.pointerMove 60 none { left := 0, width := 1440 }) envModel).1)
        (Input.pointerUp 60 none { left := 0, width := 1440 }) envModel).2 = [u] ∧
      toMinutesFromMidnight u.dateTimeFrom = 480 ∧
      toMinutesFromMidnight u.dateTimeTo - toMinutesFromMidnight u.dateTimeFrom = 180 := by
  obtain ⟨u, h1, h2, h3⟩ := C3_amended_move_preserves_snapped_span c3MoveState c3MoveCtx
    envModel 60 60 none none { left := 0, width := 1440 } { left := 0, width := 1440 }
    c3Slot 6 rfl rfl (by norm_num [c3MoveCtx]) (by norm_num [c3MoveCtx]) (by decide)
    (by norm_num [c3MoveCtx]) (by norm_num [c3MoveCtx]) (by decide) (by decide) (by decide)
    (by decide) (by decide)
  refine ⟨u, h1, ?_, ?_⟩
  · rw [h2]; norm_num [c3MoveCtx, snapToStep, jsRound]
  · rw [h3]; norm_num [c3MoveCtx]

/-- C4 (counterexample): a resize-start on the 10-minute slot `[0,10)` with
a zero pixel delta commits `[0,0]` — a span of 0 minutes.  The moving edge
is clamped against `to - 30 = -20`, which is below the day floor 0, and the
commit then re-snaps the fixed `to` edge from 10 down to 0, so a span
smaller than 30 minutes is committed, contradicting "over every pointer
delta, the resulting slot span is never smaller than 30 minutes". -/
theorem C4_counterexample_tiny_resize :
    tinyCtx.type = DragType.resizeStart ∧
    toMinutesFromMidnight tinySlot.dateTimeTo -
      toMinutesFromMidnight tinySlot.dateTimeFrom = 10 ∧
    ∃ u, (engineStep ((engineStep tinyState
          (Input.pointerMove 0 none { left := 0, width := 1440 }) envModel).1)
        (Input.pointerUp 0 none { left := 0, width := 1440 }) envModel).2 = [u] ∧
      toMinutesFromMidnight u.dateTimeFrom = 0 ∧
      toMinutesFromMidnight u.dateTimeTo = 0 := by
  refine ⟨rfl, ?_, ?_⟩
  · show toMinutesFromMidnight "2025-11-06T00:10:00" -
      toMinutesFromMidnight "2025-11-06T00:00:00" = 10
    rw [parse_T0010, parse_T0000]; norm_num
  · have hty : tinyCtx.type = DragType.resizeStart := rfl
    have hemit := moveUp_emit tinyState tinyCtx envModel 0 0 none none
      { left := 0, width := 1440 } { left := 0, width := 1440 } rfl
      (by norm_num [tinyCtx]) (by decide)
    have hcand := dragCandidate_resizeStart tinyCtx.startFromMins tinyCtx.startToMins
      ((0 - tinyCtx.startX) / tinyCtx.trackWidth * 1440)
    rw [hty, hcand] at hemit
    dsimp only at hemit
    have hargF : snapToStep (clamp (tinyCtx.startFromMins +
        (0 - tinyCtx.startX) / tinyCtx.trackWidth * 1440) 0 (tinyCtx.startToMins - 30)) 30
        = 0 := by
      norm_num [tinyCtx, clamp, snapToStep, jsRound]
    rw [hargF] at hemit
    have hargT : tinyCtx.startToMins = (10 : ℚ) := rfl
    rw [hargT] at hemit
    have hconv := commitDragToData_congr tinyState.data tinyCtx.slotId
      ((none : Option String).getD ((none : Option String).getD tinyCtx.currentLocation))
      (JNum.fin 0) (JNum.fin 10) (JNum.fin (30 * ((0 : ℤ) : ℚ))) (JNum.fin (30 * ((0 : ℤ) : ℚ)))
      (by show JNum.fin (snapToStep (clamp 0 0 1440) 30) =
            JNum.fin (snapToStep (clamp (30 * ((0 : ℤ) : ℚ)) 0 1440) 30)
          norm_num [clamp, snapToStep, jsRound])
      (by show JNum.fin (snapToStep (clamp 10 0 1440) 30) =
            JNum.fin (snapToStep (clamp (30 * ((0 : ℤ) : ℚ)) 0 1440) 30)
          norm_num [clamp, snapToStep, jsRound])
    rw [hconv] at hemit
    obtain ⟨u, hu, hpf, hpt, -, -⟩ := commit_emit_parse tinyState.data tinyCtx.slotId
      ((none : Option String).getD ((none : Option String).getD tinyCtx.currentLocation))
      0 0 tinySlot (by decide) (by norm_num) (by decide) (by norm_num)
      (by decide) (by decide) (by decide)
    refine ⟨u, by rw [hemit]; exact hu, ?_, ?_⟩
    · rw [hpf]; norm_num
    · rw [hpt]; norm_num

/-- C4 (amended).  For resize-start and resize-end gestures on a slot whose
edges sit on the 30-minute grid with span at least 30 (the invariant of
every displayed slot after a rebuild; raw off-grid host data loses this, see
the counterexample), the committed result never has a span below 30
minutes, over every pointer delta: the moving edge is clamped against the
fixed edge rather than the gesture being rejected. -/
theorem C4_amended_resize_min_span :
    (∀ (st : EngineState) (ctx : DragContext) (env : Env) (x1 x2 : ℚ)
        (locAt1 locAt2 : Option String) (rect1 rect2 : Rect) (s0 : CompactCalendarSlot)
        (ja jb : ℤ),
      st.dragCtx = some ctx → ctx.type = DragType.resizeStart → 0 < ctx.trackWidth →
      ctx.startFromMins = 30 * (ja : ℚ) → ctx.startToMins = 30 * (jb : ℚ) →
      0 ≤ ja → 30 * (jb : ℚ) ≤ 1440 → ja + 1 ≤ jb →
      st.data.find? (fun s => s.id == ctx.slotId) = some s0 →
      s0.dateTimeFrom.data ≠ [] → s0.dateTimeTo.data ≠ [] →
      hasConflict st.data ctx.slotId (locAt2.getD (locAt1.getD ctx.currentLocation))
        (JNum.fin (snapToStep (clamp (ctx.startFromMins +
          (x1 - ctx.startX) / ctx.trackWidth * 1440) 0 (ctx.startToMins - 30)) 30))
        (JNum.fin ctx.startToMins) = false →
      outOfWorkingB st.workingHours (locAt2.getD (locAt1.getD ctx.currentLocation))
        (JNum.fin (snapToStep (clamp (ctx.startFromMins +
          (x1 - ctx.startX) / ctx.trackWidth * 1440) 0 (ctx.startToMins - 30)) 30))
        (JNum.fin ctx.startToMins) = false →
      ∃ u, (engineStep ((engineStep st (Input.pointerMove x1 locAt1 rect1) env).1)
          (Input.pointerUp x2 locAt2 rect2) env).2 = [u] ∧
        toMinutesFromMidnight u.dateTimeTo - toMinutesFromMidnight u.dateTimeFrom ≥ 30) ∧
    (∀ (st : EngineState) (ctx : DragContext) (env : Env) (x1 x2 : ℚ)
        (locAt1 locAt2 : Option String) (rect1 rect2 : Rect) (s0 : CompactCalendarSlot)
        (ja jb : ℤ),
      st.dragCtx = some ctx → ctx.type = DragType.resizeEnd → 0 < ctx.trackWidth →
      ctx.startFromMins = 30 * (ja : ℚ) → ctx.startToMins = 30 * (jb : ℚ) →
      0 ≤ ja → 30 * (jb : ℚ) ≤ 1440 → ja + 1 ≤ jb →
      st.data.find? (fun s => s.id == ctx.slotId) = some s0 →
      s0.dateTimeFrom.data ≠ [] → s0.dateTimeTo.data ≠ [] →
      hasConflict st.data ctx.slotId (locAt2.getD (locAt1.getD ctx.currentLocation))
        (JNum.fin ctx.startFromMins)
        (JNum.fin (snapToStep (clamp (ctx.startToMins +
          (x1 - ctx.startX) / ctx.trackWidth * 1440) (ctx.startFromMins + 30) 1440) 30)) =
        false →
      outOfWorkingB st.workingHours (locAt2.getD (locAt1.getD ctx.currentLocation))
        (JNum.fin ctx.startFromMins)
        (JNum.fin (snapToStep (clamp (ctx.startToMins +
          (x1 - ctx.startX) / ctx.trackWidth * 1440) (ctx.startFromMins + 30) 1440) 30)) =
        false →
      ∃ u, (engineStep ((engineStep st (Input.pointerMove x1 locAt1 rect1) env).1)
          (Input.pointerUp x2 locAt2 rect2) env).2 = [u] ∧
        toMinutesFromMidnight u.dateTimeTo - toMinutesFromMidnight u.dateTimeFrom ≥ 30) := by
  constructor
  · intro st ctx env x1 x2 locAt1 locAt2 rect1 rect2 s0 ja jb h hty hw hf0 ht0 hja hjb
      hmin hfound hne1 hne2 hconf hoow
    have hcand := dragCandidate_resizeStart ctx.startFromMins ctx.startToMins
      ((x1 - ctx.startX) / ctx.trackWidth * 1440)
    have hjb1 : (1 : ℚ) ≤ (jb : ℚ) := by exact_mod_cast (by omega : (1 : ℤ) ≤ jb)
    have hlohi : (0 : ℚ) ≤ ctx.startToMins - 30 := by rw [ht0]; linarith
    have hraw0 : 0 ≤ clamp (ctx.startFromMins + (x1 - ctx.startX) / ctx.trackWidth * 1440)
        0 (ctx.startToMins - 30) := clamp_ge_lo _ _ _
    have hraw1 : clamp (ctx.startFromMins + (x1 - ctx.startX) / ctx.trackWidth * 1440)
        0 (ctx.startToMins - 30) ≤ ctx.startToMins - 30 := clamp_le_hi _ _ _ hlohi
    obtain ⟨kf, hkf⟩ := snapToStep_exists_mult
      (clamp (ctx.startFromMins + (x1 - ctx.startX) / ctx.trackWidth * 1440) 0
        (ctx.startToMins - 30))
    have hfr0 := snapToStep_nonneg _ hraw0
    have he : ctx.startToMins - 30 = 30 * ((jb - 1 : ℤ) : ℚ) := by
      rw [ht0]; push_cast; ring
    have hfr1 : snapToStep (clamp (ctx.startFromMins +
        (x1 - ctx.startX) / ctx.trackWidth * 1440) 0 (ctx.startToMins - 30)) 30 ≤
        ctx.startToMins - 30 := by
      have hm := snapToStep_mono _ _ hraw1
      rw [he, snapToStep_30_mult, ← he] at hm
      exact hm
    have hkf0 : 0 ≤ kf := by
      rw [hkf] at hfr0
      have : (0 : ℚ) ≤ (kf : ℚ) := by linarith
      exact_mod_cast this
    have hkf1 : 30 * (kf : ℚ) ≤ 1440 := by
      rw [hkf] at hfr1
      rw [ht0] at hfr1
      linarith
    have hjb0 : 0 ≤ jb := by omega
    have hvalid : (hasConflict st.data ctx.slotId
        (locAt2.getD (locAt1.getD ctx.currentLocation))
        (dragCandidate ctx.type ctx.startFromMins ctx.startToMins
          (JNum.fin ((x1 - ctx.startX) / ctx.trackWidth * 1440))).1
        (dragCandidate ctx.type ctx.startFromMins ctx.startToMins
          (JNum.fin ((x1 - ctx.startX) / ctx.trackWidth * 1440))).2 ||
        outOfWorkingB st.workingHours (locAt2.getD (locAt1.getD ctx.currentLocation))
        (dragCandidate ctx.type ctx.startFromMins ctx.startToMins
          (JNum.fin ((x1 - ctx.startX) / ctx.trackWidth * 1440))).1
        (dragCandidate ctx.type ctx.startFromMins ctx.startToMins
          (JNum.fin ((x1 - ctx.startX) / ctx.trackWidth * 1440))).2) = false := by
      rw [hty, hcand]
      dsimp only
      rw [hconf, hoow]
      rfl
    have hemit := moveUp_emit st ctx env x1 x2 locAt1 locAt2 rect1 rect2 h hw hvalid
    rw [hty, hcand] at hemit
    dsimp only at hemit
    rw [hkf, ht0] at hemit
    obtain ⟨u, hu, hpf, hpt, -, -⟩ := commit_emit_parse st.data ctx.slotId
      (locAt2.getD (locAt1.getD ctx.currentLocation)) kf jb s0 hkf0 hkf1 hjb0 hjb
      hfound hne1 hne2
    refine ⟨u, by rw [hemit]; exact hu, ?_⟩
    rw [hpf, hpt]
    rw [hkf, ht0] at hfr1
    linarith
  · intro st ctx env x1 x2 locAt1 locAt2 rect1 rect2 s0 ja jb h hty hw hf0 ht0 hja hjb
      hmin hfound hne1 hne2 hconf hoow
    have hcand := dragCandidate_resizeEnd ctx.startFromMins ctx.startToMins
      ((x1 - ctx.startX) / ctx.trackWidth * 1440)
    have hjaq : (0 : ℚ) ≤ (ja : ℚ) := by exact_mod_cast hja
    have hjbq : (ja : ℚ) + 1 ≤ (jb : ℚ) := by exact_mod_cast hmin
    have hlohi : ctx.startFromMins + 30 ≤ 1440 := by rw [hf0]; linarith
    have hraw0 : ctx.startFromMins + 30 ≤ clamp (ctx.startToMins +
        (x1 - ctx.startX) / ctx.trackWidth * 1440) (ctx.startFromMins + 30) 1440 :=
      clamp_ge_lo _ _ _
    have hraw1 : clamp (ctx.startToMins + (x1 - ctx.startX) / ctx.trackWidth * 1440)
        (ctx.startFromMins + 30) 1440 ≤ 1440 := clamp_le_hi _ _ _ hlohi
    obtain ⟨kt, hkt⟩ := snapToStep_exists_mult
      (clamp (ctx.startToMins + (x1 - ctx.startX) / ctx.trackWidth * 1440)
        (ctx.startFromMins + 30) 1440)
    have he : ctx.startFromMins + 30 = 30 * ((ja + 1 : ℤ) : ℚ) := by
      rw [hf0]; push_cast; ring
    have htr0 : ctx.startFromMins + 30 ≤ snapToStep (clamp (ctx.startToMins +
        (x1 - ctx.startX) / ctx.trackWidth * 1440) (ctx.startFromMins + 30) 1440) 30 := by
      have hm := snapToStep_mono _ _ hraw0
      rw [he, snapToStep_30_mult, ← he] at hm
      exact hm
    have htr1 : snapToStep (clamp (ctx.startToMins +
        (x1 - ctx.startX) / ctx.trackWidth * 1440) (ctx.startFromMins + 30) 1440) 30 ≤
        1440 := by
      have hm := snapToStep_mono _ _ hraw1
      rw [show (1440 : ℚ) = 30 * ((48 : ℤ) : ℚ) from by norm_num] at hm
      rw [snapToStep_30_mult] at hm
      rw [show (30 : ℚ) * ((48 : ℤ) : ℚ) = 1440 from by norm_num] at hm
      exact hm
    have hkt0 : 0 ≤ kt := by
      rw [hkt] at htr0
      rw [hf0] at htr0
      have : (0 : ℚ) ≤ (kt : ℚ) := by linarith
      exact_mod_cast this
    have hkt1 : 30 * (kt : ℚ) ≤ 1440 := by rw [hkt] at htr1; exact htr1
    have hja1 : 30 * (ja : ℚ) ≤ 1440 := by linarith
    have hvalid : (hasConflict st.data ctx.slotId
        (locAt2.getD (locAt1.getD ctx.currentLocation))
        (dragCandidate ctx.type ctx.startFromMins ctx.startToMins
          (JNum.fin ((x1 - ctx.startX) / ctx.trackWidth * 1440))).1
        (dragCandidate ctx.type ctx.startFromMins ctx.startToMins
          (JNum.fin ((x1 - ctx.startX) / ctx.trackWidth * 1440))).2 ||
        outOfWorkingB st.workingHours (locAt2.getD (locAt1.getD ctx.currentLocation))
        (dragCandidate ctx.type ctx.startFromMins ctx.startToMins
          (JNum.fin ((x1 - ctx.startX) / ctx.trackWidth * 1440))).1
        (dragCandidate ctx.type ctx.startFromMins ctx.startToMins
          (JNum.fin ((x1 - ctx.startX) / ctx.trackWidth * 1440))).2) = false := by
      rw [hty, hcand]
      dsimp only
      rw [hconf, hoow]
      rfl
    have hemit := moveUp_emit st ctx env x1 x2 locAt1 locAt2 rect1 rect2 h hw hvalid
    rw [hty, hcand] at hemit
    dsimp only at hemit
    rw [hkt, hf0] at hemit
    obtain ⟨u, hu, hpf, hpt, -, -⟩ := commit_emit_parse st.data ctx.slotId
      (locAt2.getD (locAt1.getD ctx.currentLocation)) ja kt s0 hja hja1 hkt0 hkt1
      hfound hne1 hne2
    refine ⟨u, by rw [hemit]; exact hu, ?_⟩
    rw [hpf, hpt]
    rw [hkt, hf0] at htr0
    linarith

/-- C4 (witness): a resize-start on the grid-aligned slot `[60,120)` with a
zero pixel delta commits a span of at least 30 minutes. -/
theorem C4_amended_resize_min_span_witness :
    ∃ u, (engineStep ((engineStep c4State
          (Input.pointerMove 0 none { left := 0, width := 1440 }) envModel).1)
        (Input.pointerUp 0 none { left := 0, width := 1440 }) envModel).2 = [u] ∧
      toMinutesFromMidnight u.dateTimeTo - toMinutesFromMidnight u.dateTimeFrom ≥ 30 :=
  (C4_amended_resize_min_span).1 c4State c4Ctx envModel 0 0 none none
    { left := 0, width := 1440 } { left := 0, width := 1440 } c4Slot 2 4
    rfl rfl (by norm_num [c4Ctx]) (by norm_num [c4Ctx]) (by norm_num [c4Ctx])
    (by decide) (by norm_num) (by decide) (by decide) (by decide) (by decide)
    (by decide) (by decide)

end Calendar
